import Mathlib

/-!
Shallow embedding of the acme-rest-apis social-media backend.

The code embedded here is the final Hono application draft in
`src/unnamed/part_001` (routes from `POST /api/auth/register` onward) together
with `src/src/middleware/authMiddleware.ts`.  The relational store (Cloudflare
D1 / SQLite, schema in `migrations/0001_social_media_schema.sql`) is embedded
as lists of rows; SQL `SELECT ... WHERE` becomes `List.filter`, `INSERT`
becomes cons, `UPDATE ... WHERE id = ?` becomes `List.map` guarded on the id,
and `DELETE` becomes `List.filter` on the negated condition.  `AUTOINCREMENT`
ids are modelled with `nextUserId` / `nextPostId` / `nextCommentId` counters.
Counter columns are `Int`, matching the SQL integer arithmetic of
`likes_count + 1` / `posts_count - 1`.

Handlers that perform a read-check followed by a write are given a two-state
form (`...On readDb writeDb`) so that the window between a handler's SELECT
checks and its writes under concurrent requests can be expressed: the checks
run against `readDb`, the writes against `writeDb`, and a store `UNIQUE`
constraint makes the INSERT throw exactly when the conflicting row is present
in `writeDb`.  Sequential execution is the diagonal `readDb = writeDb`.

Opaque external collaborators: bcrypt is an opaque one-way function (modelled
by a tagging function, never inverted), and jwt sign/verify is opaque — a
signed token is identified with the claims record passed to `jwtLib.sign`.
-/

/-- JWT claims, `UserClaims` of authMiddleware.ts. -/
structure UserClaims where
  userId : Nat
  email : String
  tier : String
  role : String
  username : Option String
deriving DecidableEq

/-- Row of the `users` table (count columns are SQL integers). -/
structure User where
  id : Nat
  name : String
  email : String
  password : String
  username : Option String
  tier : String
  role : String
  followers_count : Int
  following_count : Int
  posts_count : Int
deriving DecidableEq

/-- Row of the `posts` table. -/
structure Post where
  id : Nat
  user_id : Nat
  content : String
  media_url : Option String
  media_type : Option String
  visibility : String
  likes_count : Int
  comments_count : Int
  shares_count : Int
  created_at : Nat
deriving DecidableEq

/-- Row of the `likes` table (the surrogate `id` column is never read by the
handlers, so it is not modelled). -/
structure LikeRow where
  post_id : Nat
  user_id : Nat
deriving DecidableEq

/-- Row of the `comments` table. -/
structure CommentRow where
  id : Nat
  post_id : Nat
  user_id : Nat
  content : String
  parent_comment_id : Option Nat
deriving DecidableEq

/-- Row of the `follows` table. -/
structure FollowRow where
  follower_id : Nat
  following_id : Nat
deriving DecidableEq

/-- Row of the `shares` table. -/
structure ShareRow where
  post_id : Nat
  user_id : Nat
deriving DecidableEq

/-- The relational store.  `now` stands for CURRENT_TIMESTAMP. -/
structure DB where
  users : List User
  posts : List Post
  likes : List LikeRow
  comments : List CommentRow
  follows : List FollowRow
  shares : List ShareRow
  nextUserId : Nat
  nextPostId : Nat
  nextCommentId : Nat
  now : Nat
deriving DecidableEq

/-- JavaScript truthiness of an optional string (`undefined` and `""` are
falsy; every other string is truthy). -/
def strTruthy : Option String → Bool
  | none => false
  | some s => !(s == "")

/-- Whitespace test used by `trim`. -/
def wsChar (c : Char) : Bool := c == ' ' || c == '\t' || c == '\n' || c == '\r'

/-- JavaScript `String.prototype.trim` (structural model). -/
def strTrim (s : String) : String :=
  ⟨((s.data.dropWhile wsChar).reverse.dropWhile wsChar).reverse⟩

/-- Opaque stand-in for `bcrypt.hash` (never inverted anywhere). -/
def bcryptHash (pw : String) : String := "bcrypt$" ++ pw

/-- Tier table `tierLevels = { free: 1, premium: 2, enterprise: 3 }` of authMiddleware.ts,
including the `|| 0` fallback used for a tier outside the table. -/
def tierLevel (t : String) : Nat :=
  if t == "free" then 1
  else if t == "premium" then 2
  else if t == "enterprise" then 3
  else 0

/-- Outcome of a gating middleware: pass through, or short-circuit with a JSON
error response (status, optional `required` field, optional `current` field). -/
inductive GateResult where
  | allow : GateResult
  | deny (status : Nat) (required : Option String) (current : Option String) : GateResult
deriving DecidableEq

/-- Middleware `requireTier` of authMiddleware.ts lines 44-67: missing claims give 401,
a tier level below the required level gives 403 with `required`/`current`
fields, otherwise the request passes. -/
def requireTier (minTier : String) (user : Option UserClaims) : GateResult :=
  match user with
  | none => .deny 401 none none
  | some u =>
    if tierLevel u.tier < tierLevel minTier then .deny 403 (some minTier) (some u.tier)
    else .allow

/-- Request body of `POST /api/auth/register`. -/
structure RegisterBody where
  name : Option String
  email : Option String
  password : Option String
  username : Option String
  tier : Option String
deriving DecidableEq

/-- Response of `POST /api/auth/register`: status, the claims passed to
`jwtLib.sign` (the signed token is opaque, so it is identified with its
claims), and the `user` summary. -/
structure RegisterResult where
  status : Nat
  token : Option UserClaims
  user : Option User
deriving DecidableEq

def validTiers : List String := ["free", "premium", "enterprise"]

/-- Handler for `POST /api/auth/register` (part_001 lines 337-406).  Validates presence
and password length, rejects an existing email/username with 409, computes
`userTier` with the demo tier-selection line 363, inserts the user with role
`'user'`, and signs a token carrying exactly the inserted tier and role. -/
def register (db : DB) (b : RegisterBody) : RegisterResult × DB :=
  if !(strTruthy b.name) || !(strTruthy b.email) || !(strTruthy b.password) then
    (⟨400, none, none⟩, db)
  else if (b.password.getD "").length < 8 then
    (⟨400, none, none⟩, db)
  else if db.users.any (fun u =>
      u.email == b.email.getD "" || u.username == some (b.username.getD "")) then
    (⟨409, none, none⟩, db)
  else
    let userTier := match b.tier with
      | some t => if validTiers.contains t then t else "free"
      | none => "free"
    let uname : Option String := if strTruthy b.username then b.username else none
    let newUser : User :=
      { id := db.nextUserId, name := b.name.getD "", email := b.email.getD "",
        password := bcryptHash (b.password.getD ""), username := uname,
        tier := userTier, role := "user",
        followers_count := 0, following_count := 0, posts_count := 0 }
    let claims : UserClaims :=
      { userId := db.nextUserId, email := b.email.getD "",
        tier := userTier, role := "user", username := uname }
    (⟨201, some claims, some newUser⟩,
      { db with users := newUser :: db.users, nextUserId := db.nextUserId + 1 })

/-- Request body of `POST /api/posts`. -/
structure PostBody where
  content : Option String
  media_url : Option String
  media_type : Option String
  visibility : Option String
deriving DecidableEq

def validVisibility : List String := ["public", "private", "followers_only"]

/-- Handler for `POST /api/posts` (part_001 lines 484-533).  Content must be a non-empty
string of at most 5000 characters; `postVisibility` is the line-500 coalescing
expression (an unrecognised value falls back to `'public'`, with no rejection);
a truthy `media_type` outside image/video/gif gives 400.  On success the post
row is inserted and the owner's `posts_count` incremented. -/
def createPost (db : DB) (u : UserClaims) (b : PostBody) : (Nat × Option Post) × DB :=
  if !(strTruthy b.content) || ((strTrim (b.content.getD "")).length == 0) then
    ((400, none), db)
  else if 5000 < (b.content.getD "").length then
    ((400, none), db)
  else
    let postVisibility := match b.visibility with
      | some v => if validVisibility.contains v then v else "public"
      | none => "public"
    if strTruthy b.media_type && !(["image", "video", "gif"].contains (b.media_type.getD "")) then
      ((400, none), db)
    else
      let newPost : Post :=
        { id := db.nextPostId, user_id := u.userId, content := b.content.getD "",
          media_url := if strTruthy b.media_url then b.media_url else none,
          media_type := if strTruthy b.media_type then b.media_type else none,
          visibility := postVisibility,
          likes_count := 0, comments_count := 0, shares_count := 0,
          created_at := db.now }
      ((201, some newPost),
        { db with
          posts := newPost :: db.posts,
          users := db.users.map (fun usr =>
            if usr.id == u.userId then { usr with posts_count := usr.posts_count + 1 } else usr),
          nextPostId := db.nextPostId + 1 })

/-- Handler for `GET /api/posts/:id` (part_001 lines 706-744).  The route has no
middleware and reads no Authorization header; it joins the post with its
owner row and returns both (the comment list of the response is not needed by
any claim and is omitted).  A missing post — or a post whose owner row is
gone, which makes the SQL JOIN empty — gives 404. -/
def getPostById (db : DB) (pid : Option Nat) : Nat × Option (Post × User) :=
  match pid with
  | none => (400, none)
  | some postId =>
    match db.posts.filter (fun p => p.id == postId) with
    | [] => (404, none)
    | p :: _ =>
      match db.users.filter (fun usr => usr.id == p.user_id) with
      | [] => (404, none)
      | usr :: _ => (200, some (p, usr))

/-- The SQL row predicate `post_id = ? AND user_id = ?` on `likes`. -/
def likePair (postId uid : Nat) : LikeRow → Bool :=
  fun l => l.post_id == postId && l.user_id == uid

/-- Handler for `POST /api/posts/:id/like` (part_001 lines 536-578), two-state form.
Checks (post existence, fast-path duplicate check) run on `readDb`; the
INSERT and counter UPDATE run on `writeDb`.  A row with the same
`(post_id, user_id)` already present in `writeDb` makes the INSERT hit the
table's UNIQUE constraint and throw, and the handler's catch-all turns any
thrown store error into a 500 response. -/
def likePostOn (readDb writeDb : DB) (u : UserClaims) (pid : Option Nat) : Nat × DB :=
  match pid with
  | none => (400, writeDb)
  | some postId =>
    if (readDb.posts.filter (fun p => p.id == postId)).length == 0 then (404, writeDb)
    else if 0 < (readDb.likes.filter (likePair postId u.userId)).length then (409, writeDb)
    else if writeDb.likes.any (likePair postId u.userId) then (500, writeDb)
    else
      (201,
        { writeDb with
          likes := ⟨postId, u.userId⟩ :: writeDb.likes,
          posts := writeDb.posts.map (fun p =>
            if p.id == postId then { p with likes_count := p.likes_count + 1 } else p) })

/-- Handler `POST /api/posts/:id/like` under sequential execution. -/
def likePost (db : DB) (u : UserClaims) (pid : Option Nat) : Nat × DB :=
  likePostOn db db u pid

/-- Request body of `POST /api/posts/:id/comment`. -/
structure CommentBody where
  content : Option String
  parent_comment_id : Option Nat
deriving DecidableEq

/-- Handler for `POST /api/posts/:id/comment` (part_001 lines 581-643).  Content must be a
non-empty string of at most 1000 characters; a truthy `parent_comment_id`
(JavaScript truthiness: 0 counts as absent) must name a comment of the same
post; the row is inserted with `parent_comment_id || null` and the post's
`comments_count` incremented. -/
def commentPost (db : DB) (u : UserClaims) (pid : Option Nat) (b : CommentBody) : Nat × DB :=
  match pid with
  | none => (400, db)
  | some postId =>
    if !(strTruthy b.content) || ((strTrim (b.content.getD "")).length == 0) then (400, db)
    else if 1000 < (b.content.getD "").length then (400, db)
    else if (db.posts.filter (fun p => p.id == postId)).length == 0 then (404, db)
    else
      let parentEff : Option Nat := match b.parent_comment_id with
        | some pc => if pc == 0 then none else some pc
        | none => none
      let doInsert : DB :=
        { db with
          comments := ⟨db.nextCommentId, postId, u.userId, b.content.getD "", parentEff⟩ :: db.comments,
          posts := db.posts.map (fun p =>
            if p.id == postId then { p with comments_count := p.comments_count + 1 } else p),
          nextCommentId := db.nextCommentId + 1 }
      match parentEff with
      | some pc =>
        if (db.comments.filter (fun cm => cm.id == pc && cm.post_id == postId)).length == 0 then
          (404, db)
        else (201, doInsert)
      | none => (201, doInsert)

/-- Handler body of `PATCH /api/posts/:id/share` (part_001 lines 1038-1081),
after `authMiddleware` and `requireTier 'premium'` have passed.  The `shares`
table has no UNIQUE constraint, so the INSERT never throws; duplicate shares
are only caught by the fast-path 409 check. -/
def sharePost (db : DB) (u : UserClaims) (pid : Option Nat) : Nat × DB :=
  match pid with
  | none => (400, db)
  | some postId =>
    if (db.posts.filter (fun p => p.id == postId)).length == 0 then (404, db)
    else if 0 < (db.shares.filter (fun s => s.post_id == postId && s.user_id == u.userId)).length then
      (409, db)
    else
      (200,
        { db with
          shares := ⟨postId, u.userId⟩ :: db.shares,
          posts := db.posts.map (fun p =>
            if p.id == postId then { p with shares_count := p.shares_count + 1 } else p) })

/-- The SQL row predicate `follower_id = ? AND following_id = ?` on `follows`. -/
def followPair (me target : Nat) : FollowRow → Bool :=
  fun f => f.follower_id == me && f.following_id == target

/-- Handler for `PATCH /api/users/:id/follow` (part_001 lines 973-1035), two-state form.
Self-follow gives 400 before the existence check; a missing target gives 404.
If the read snapshot has a (requester, target) row the handler issues the
DELETE (whose affected-row count it never inspects) and decrements both
counters; otherwise it INSERTs (the UNIQUE constraint makes the insert throw
when `writeDb` already holds the pair, and the catch-all answers 500) and
increments both counters. -/
def followToggleOn (readDb writeDb : DB) (u : UserClaims) (tid : Option Nat) :
    (Nat × Option String) × DB :=
  match tid with
  | none => ((400, none), writeDb)
  | some targetId =>
    if targetId == u.userId then ((400, none), writeDb)
    else if (readDb.users.filter (fun usr => usr.id == targetId)).length == 0 then
      ((404, none), writeDb)
    else if 0 < (readDb.follows.filter (followPair u.userId targetId)).length then
      ((200, some "unfollowed"),
        { writeDb with
          follows := writeDb.follows.filter (fun f => !(followPair u.userId targetId f)),
          users := (writeDb.users.map (fun usr =>
              if usr.id == u.userId then { usr with following_count := usr.following_count - 1 } else usr)).map
            (fun usr =>
              if usr.id == targetId then { usr with followers_count := usr.followers_count - 1 } else usr) })
    else if writeDb.follows.any (followPair u.userId targetId) then ((500, none), writeDb)
    else
      ((200, some "followed"),
        { writeDb with
          follows := ⟨u.userId, targetId⟩ :: writeDb.follows,
          users := (writeDb.users.map (fun usr =>
              if usr.id == u.userId then { usr with following_count := usr.following_count + 1 } else usr)).map
            (fun usr =>
              if usr.id == targetId then { usr with followers_count := usr.followers_count + 1 } else usr) })

/-- Handler `PATCH /api/users/:id/follow` under sequential execution. -/
def followToggle (db : DB) (u : UserClaims) (tid : Option Nat) : (Nat × Option String) × DB :=
  followToggleOn db db u tid

/-- Request body of `PUT /api/posts/:id`; `none` is JavaScript `undefined`
(field absent), mirroring the `!== undefined` tests of the handler. -/
structure UpdateBody where
  content : Option String
  media_url : Option String
  media_type : Option String
  visibility : Option String
deriving DecidableEq

/-- The dynamic `UPDATE posts SET ...` assembled by the PUT handler, applied
to one row: every present field overwrites the column. -/
def applyPostUpdate (b : UpdateBody) (p : Post) : Post :=
  { p with
    content := b.content.getD p.content,
    media_url := match b.media_url with
      | some m => some m
      | none => p.media_url,
    media_type := match b.media_type with
      | some m => some m
      | none => p.media_type,
    visibility := b.visibility.getD p.visibility }

/-- Handler for `PUT /api/posts/:id` (part_001 lines 835-904).  Existence is checked
first (404), then ownership (403, owner only — no admin bypass), then the
present fields are validated (content length, visibility enum) and assembled;
an empty field set gives 400. -/
def updatePost (db : DB) (u : UserClaims) (pid : Option Nat) (b : UpdateBody) : Nat × DB :=
  match pid with
  | none => (400, db)
  | some postId =>
    match db.posts.filter (fun p => p.id == postId) with
    | [] => (404, db)
    | post :: _ =>
      if !(post.user_id == u.userId) then (403, db)
      else if b.content.any (fun ct => decide (5000 < ct.length)) then (400, db)
      else if b.visibility.any (fun v => !(validVisibility.contains v)) then (400, db)
      else if b.content.isNone && b.media_url.isNone && b.media_type.isNone && b.visibility.isNone then
        (400, db)
      else
        (200,
          { db with
            posts := db.posts.map (fun p => if p.id == postId then applyPostUpdate b p else p) })

/-- Handler for `DELETE /api/posts/:id` (part_001 lines 1088-1123).  Existence is checked
first (404), then ownership-or-admin (403).  The row deletion cascades to the
post's likes, comments and shares (the schema's ON DELETE CASCADE foreign
keys), and the owner's `posts_count` is decremented. -/
def deletePost (db : DB) (u : UserClaims) (pid : Option Nat) : Nat × DB :=
  match pid with
  | none => (400, db)
  | some postId =>
    match db.posts.filter (fun p => p.id == postId) with
    | [] => (404, db)
    | post :: _ =>
      if !(post.user_id == u.userId) && !(u.role == "admin") then (403, db)
      else
        (200,
          { db with
            posts := db.posts.filter (fun p => !(p.id == postId)),
            likes := db.likes.filter (fun l => !(l.post_id == postId)),
            comments := db.comments.filter (fun cm => !(cm.post_id == postId)),
            shares := db.shares.filter (fun s => !(s.post_id == postId)),
            users := db.users.map (fun usr =>
              if usr.id == post.user_id then { usr with posts_count := usr.posts_count - 1 } else usr) })

/-- Leading decimal digits of a character list, as a number; `none` when the
list does not start with a digit (the NaN case of `parseInt`). -/
def jsDigits (cs : List Char) : Option Nat :=
  let ds := cs.takeWhile (fun ch => ch.isDigit)
  if ds.isEmpty then none
  else some (ds.foldl (fun a ch => a * 10 + (ch.toNat - 48)) 0)

/-- JavaScript `parseInt(s)` on base-10 input: optional sign followed by the
longest digit prefix; `none` is NaN.  (Whitespace stripping and hex prefixes
are irrelevant to the query strings exercised here and are not modelled.) -/
def jsParseInt (s : String) : Option Int :=
  match s.data with
  | '-' :: rest => (jsDigits rest).map (fun n => -(n : Int))
  | '+' :: rest => (jsDigits rest).map (fun n => (n : Int))
  | cs => (jsDigits cs).map (fun n => (n : Int))

/-- Expression `c.req.query(x) || dflt`: the query parameter when present and non-empty,
the default otherwise. -/
def orTruthy (o : Option String) (dflt : String) : String :=
  match o with
  | some s => if s == "" then dflt else s
  | none => dflt

/-- The `pagination` object echoed by `GET /api/posts`. -/
structure Pagination where
  limit : Int
  offset : Int
  count : Nat
deriving DecidableEq

/-- Model of `Math.min` on integers. -/
def jsMin (a b : Int) : Int := if a ≤ b then a else b

/-- SQLite `LIMIT ? OFFSET ?`: a negative OFFSET acts as zero (`Int.toNat`
sends negatives to 0), a negative LIMIT means no limit. -/
def sqlLimitOffset (limit offset : Int) (l : List α) : List α :=
  let l' := l.drop offset.toNat
  if limit < 0 then l' else l'.take limit.toNat

/-- The `posts p JOIN users u ON p.user_id = u.id` relation. -/
def joinRows (db : DB) : List (Post × User) :=
  db.posts.flatMap (fun p =>
    (db.users.filter (fun usr => usr.id == p.user_id)).map (fun usr => (p, usr)))

/-- Sorted insertion (structural model of the store's ORDER BY sort). -/
def orderedIns (le : α → α → Bool) (a : α) : List α → List α
  | [] => [a]
  | b :: l => if le a b then a :: b :: l else b :: orderedIns le a l

/-- Insertion sort: the model of SQL ORDER BY (only the multiset of returned
rows is relied upon; tie order in SQLite is unspecified anyway). -/
def sortRows (le : α → α → Bool) : List α → List α
  | [] => []
  | a :: l => orderedIns le a (sortRows le l)

/-- The ORDER BY comparator of `GET /api/posts` (descending; ties broken by
`created_at` descending for popular/trending, plain `created_at` descending
otherwise). -/
def postOrder (sort : String) (a b : Post × User) : Bool :=
  if sort == "popular" then
    decide (b.1.likes_count < a.1.likes_count) ||
      (a.1.likes_count == b.1.likes_count && decide (b.1.created_at ≤ a.1.created_at))
  else if sort == "trending" then
    decide (b.1.likes_count + b.1.comments_count + b.1.shares_count
        < a.1.likes_count + a.1.comments_count + a.1.shares_count) ||
      (a.1.likes_count + a.1.comments_count + a.1.shares_count
          == b.1.likes_count + b.1.comments_count + b.1.shares_count
        && decide (b.1.created_at ≤ a.1.created_at))
  else decide (b.1.created_at ≤ a.1.created_at)

/-- Handler for `GET /api/posts` (part_001 lines 650-703).  No middleware is attached.
`limit` is `Math.min(parseInt(limit || '20'), 100)` — capped above, never
below; `offset` is `parseInt(offset || '0')` with no sign check; `visibility`
is the caller's string, defaulted to `'public'`, passed directly into the
WHERE clause; an optional `user_id` adds an equality filter.  A NaN reaching
a bind parameter is rejected by the store client, which the catch-all maps to
500.  The response echoes `limit`, `offset` and the returned row count. -/
def listPosts (db : DB) (limitP offsetP sortP visP userP : Option String) :
    Nat × Option (Pagination × List (Post × User)) :=
  match jsParseInt (orTruthy limitP "20"), jsParseInt (orTruthy offsetP "0") with
  | some rawLimit, some offset =>
    let limit := jsMin rawLimit 100
    let sort := orTruthy sortP "recent"
    let vis := orTruthy visP "public"
    let userFilter : Option (Option Int) :=
      if strTruthy userP then
        match jsParseInt (userP.getD "") with
        | some uid => some (some uid)
        | none => none
      else some none
    match userFilter with
    | none => (500, none)
    | some uidFilter =>
      let byVis := (joinRows db).filter (fun r : Post × User => r.1.visibility == vis)
      let byUser := match uidFilter with
        | some uid => byVis.filter (fun r : Post × User => ((r.1.user_id : Int) == uid))
        | none => byVis
      let sorted := sortRows (postOrder sort) byUser
      let page := sqlLimitOffset limit offset sorted
      (200, some (⟨limit, offset, page.length⟩, page))
  | _, _ => (500, none)

/-- Number of `likes` rows of a post. -/
def likesCnt (db : DB) (pid : Nat) : Nat := db.likes.countP (fun l => l.post_id == pid)

/-- Number of `comments` rows of a post. -/
def commentsCnt (db : DB) (pid : Nat) : Nat := db.comments.countP (fun cm => cm.post_id == pid)

/-- Number of `shares` rows of a post. -/
def sharesCnt (db : DB) (pid : Nat) : Nat := db.shares.countP (fun s => s.post_id == pid)

/-- Number of `posts` rows of a user. -/
def postsCnt (db : DB) (uid : Nat) : Nat := db.posts.countP (fun p => p.user_id == uid)

/-- Number of `follows` rows pointing at a user. -/
def followersCnt (db : DB) (uid : Nat) : Nat := db.follows.countP (fun f => f.following_id == uid)

/-- Number of `follows` rows issued by a user. -/
def followingCnt (db : DB) (uid : Nat) : Nat := db.follows.countP (fun f => f.follower_id == uid)

/-- The denormalized-counter consistency invariant of the spec: every stored
counter equals the cardinality of the corresponding relation. -/
def countersOK (db : DB) : Prop :=
  (∀ p ∈ db.posts,
      p.likes_count = (likesCnt db p.id : Int) ∧
      p.comments_count = (commentsCnt db p.id : Int) ∧
      p.shares_count = (sharesCnt db p.id : Int)) ∧
  (∀ u ∈ db.users,
      u.posts_count = (postsCnt db u.id : Int) ∧
      u.followers_count = (followersCnt db u.id : Int) ∧
      u.following_count = (followingCnt db u.id : Int))

instance (db : DB) : Decidable (countersOK db) := by
  unfold countersOK; infer_instance

def postIds (db : DB) : List Nat := db.posts.map (fun p => p.id)

def commentIds (db : DB) : List Nat := db.comments.map (fun cm => cm.id)

/-- Structural facts every reachable store state enjoys because the store
itself enforces them: primary-key uniqueness and AUTOINCREMENT freshness of
post and comment ids, foreign keys from likes/comments/shares to posts, the
UNIQUE(follower_id, following_id) constraint, parents existing (foreign key on
`parent_comment_id`) and living in the same post (enforced by the comment
handler at insert; needed so that the self-referential ON DELETE CASCADE on
comments stays inside one post). -/
def wellFormed (db : DB) : Bool :=
  decide (postIds db).Nodup &&
  (postIds db).all (fun i => decide (i < db.nextPostId)) &&
  db.likes.all (fun l => (postIds db).contains l.post_id) &&
  db.comments.all (fun cm => (postIds db).contains cm.post_id) &&
  db.shares.all (fun s => (postIds db).contains s.post_id) &&
  decide (db.follows.map (fun f => (f.follower_id, f.following_id))).Nodup &&
  decide (commentIds db).Nodup &&
  (commentIds db).all (fun i => decide (i < db.nextCommentId)) &&
  db.comments.all (fun cm =>
    match cm.parent_comment_id with
    | none => true
    | some pc =>
        db.comments.any (fun c => c.id == pc) &&
        db.comments.all (fun c => !(c.id == pc) || (c.post_id == cm.post_id)))

/-- One sequential mutation request against the store. -/
inductive Op where
  | like (u : UserClaims) (pid : Option Nat) : Op
  | comment (u : UserClaims) (pid : Option Nat) (b : CommentBody) : Op
  | share (u : UserClaims) (pid : Option Nat) : Op
  | follow (u : UserClaims) (tid : Option Nat) : Op
  | create (u : UserClaims) (b : PostBody) : Op
  | remove (u : UserClaims) (pid : Option Nat) : Op

/-- The store state after one request (the handlers leave the store untouched
on every rejection path). -/
def applyOp (op : Op) (db : DB) : DB :=
  match op with
  | .like u pid => (likePost db u pid).2
  | .comment u pid b => (commentPost db u pid b).2
  | .share u pid => (sharePost db u pid).2
  | .follow u tid => (followToggle db u tid).2
  | .create u b => (createPost db u b).2
  | .remove u pid => (deletePost db u pid).2

/-- The store state after a sequence of requests. -/
def runOps (ops : List Op) (db : DB) : DB :=
  ops.foldl (fun d op => applyOp op d) db

/-- Query `SELECT ... FROM users WHERE id = ?`, first row. -/
def userById (db : DB) (uid : Nat) : Option User :=
  db.users.find? (fun usr => usr.id == uid)

/-- Propositional form of `wellFormed` (used by the preservation proofs). -/
def WFProp (db : DB) : Prop :=
  (db.posts.map (fun p => p.id)).Nodup ∧
  (∀ p ∈ db.posts, p.id < db.nextPostId) ∧
  (∀ l ∈ db.likes, l.post_id ∈ db.posts.map (fun p => p.id)) ∧
  (∀ cm ∈ db.comments, cm.post_id ∈ db.posts.map (fun p => p.id)) ∧
  (∀ s ∈ db.shares, s.post_id ∈ db.posts.map (fun p => p.id)) ∧
  (db.follows.map (fun f => (f.follower_id, f.following_id))).Nodup ∧
  (db.comments.map (fun cm => cm.id)).Nodup ∧
  (∀ cm ∈ db.comments, cm.id < db.nextCommentId) ∧
  (∀ cm ∈ db.comments, ∀ pc, cm.parent_comment_id = some pc →
    (∃ c ∈ db.comments, c.id = pc) ∧ (∀ c ∈ db.comments, c.id = pc → c.post_id = cm.post_id))

/- Concrete stores and actors used by the per-claim counterexamples and
witnesses. -/

def c1Owner : User :=
  { id := 2, name := "Owner", email := "owner@x", password := "h", username := none,
    tier := "free", role := "user",
    followers_count := 0, following_count := 0, posts_count := 1 }

def c1Post : Post :=
  { id := 1, user_id := 2, content := "secret note", media_url := none, media_type := none,
    visibility := "private", likes_count := 0, comments_count := 0, shares_count := 0,
    created_at := 0 }

def c1DB : DB :=
  { users := [c1Owner], posts := [c1Post], likes := [], comments := [], follows := [],
    shares := [], nextUserId := 3, nextPostId := 2, nextCommentId := 1, now := 1 }

def c2UserA : User :=
  { id := 1, name := "A", email := "a@x", password := "h", username := none,
    tier := "free", role := "user",
    followers_count := 1, following_count := 0, posts_count := 1 }

def c2UserB : User :=
  { id := 2, name := "B", email := "b@x", password := "h", username := none,
    tier := "free", role := "user",
    followers_count := 0, following_count := 1, posts_count := 0 }

def c2Post : Post :=
  { id := 10, user_id := 1, content := "hello", media_url := none, media_type := none,
    visibility := "public", likes_count := 1, comments_count := 0, shares_count := 0,
    created_at := 0 }

def c2Claims : UserClaims := { userId := 2, email := "b@x", tier := "free", role := "user", username := none }

/-- Snapshot in which user 2 has not yet liked post 10 nor followed user 1
(what the racing request read). -/
def c2ReadDB : DB :=
  { users := [{ c2UserA with followers_count := 0 }, { c2UserB with following_count := 0 }],
    posts := [{ c2Post with likes_count := 0 }], likes := [], comments := [], follows := [],
    shares := [], nextUserId := 3, nextPostId := 11, nextCommentId := 1, now := 1 }

/-- Store state at write time: a concurrent request already inserted the like
row and the follow row. -/
def c2WriteDB : DB :=
  { users := [c2UserA, c2UserB], posts := [c2Post], likes := [⟨10, 2⟩], comments := [],
    follows := [⟨2, 1⟩], shares := [], nextUserId := 3, nextPostId := 11, nextCommentId := 1,
    now := 1 }

def c3User : UserClaims := { userId := 1, email := "a@x", tier := "free", role := "user", username := none }

def c3DB : DB :=
  { users := [], posts := [], likes := [], comments := [], follows := [], shares := [],
    nextUserId := 1, nextPostId := 1, nextCommentId := 1, now := 0 }

def w5UserA : User :=
  { id := 1, name := "A", email := "a@x", password := "h", username := none,
    tier := "free", role := "user",
    followers_count := 1, following_count := 0, posts_count := 0 }

def w5UserB : User :=
  { id := 2, name := "B", email := "b@x", password := "h", username := none,
    tier := "free", role := "user",
    followers_count := 0, following_count := 1, posts_count := 0 }

def w5Claims : UserClaims := { userId := 2, email := "b@x", tier := "free", role := "user", username := none }

/-- User 2 currently follows user 1. -/
def w5DB : DB :=
  { users := [w5UserA, w5UserB], posts := [], likes := [], comments := [], follows := [⟨2, 1⟩],
    shares := [], nextUserId := 3, nextPostId := 1, nextCommentId := 1, now := 1 }

def w6Post : Post :=
  { id := 1, user_id := 1, content := "mine", media_url := none, media_type := none,
    visibility := "public", likes_count := 0, comments_count := 0, shares_count := 0,
    created_at := 0 }

def w6DB : DB :=
  { users := [], posts := [w6Post], likes := [], comments := [], follows := [], shares := [],
    nextUserId := 2, nextPostId := 2, nextCommentId := 1, now := 1 }

def w6Owner : UserClaims := { userId := 1, email := "a@x", tier := "free", role := "user", username := none }

def w6Other : UserClaims := { userId := 9, email := "o@x", tier := "free", role := "user", username := none }

def w6Admin : UserClaims := { userId := 9, email := "r@x", tier := "free", role := "admin", username := none }

def w7UserA : User :=
  { id := 1, name := "A", email := "a@x", password := "h", username := none,
    tier := "free", role := "user",
    followers_count := 0, following_count := 0, posts_count := 1 }

def w7UserB : User :=
  { id := 2, name := "B", email := "b@x", password := "h", username := none,
    tier := "premium", role := "user",
    followers_count := 0, following_count := 0, posts_count := 0 }

def w7Post : Post :=
  { id := 10, user_id := 1, content := "hi", media_url := none, media_type := none,
    visibility := "public", likes_count := 0, comments_count := 0, shares_count := 0,
    created_at := 0 }

def w7DB : DB :=
  { users := [w7UserA, w7UserB], posts := [w7Post], likes := [], comments := [], follows := [],
    shares := [], nextUserId := 3, nextPostId := 11, nextCommentId := 1, now := 2 }

def w7ClaimsA : UserClaims := { userId := 1, email := "a@x", tier := "free", role := "user", username := none }

def w7ClaimsB : UserClaims := { userId := 2, email := "b@x", tier := "premium", role := "user", username := none }

def w7Ops : List Op :=
  [Op.follow w7ClaimsB (some 1), Op.like w7ClaimsB (some 10),
   Op.comment w7ClaimsB (some 10) ⟨some "yo", none⟩, Op.share w7ClaimsB (some 10),
   Op.create w7ClaimsA ⟨some "again", none, none, some "followers_only"⟩,
   Op.follow w7ClaimsB (some 1), Op.remove w7ClaimsA (some 10)]

def c8DB : DB :=
  { users := [], posts := [], likes := [], comments := [], follows := [], shares := [],
    nextUserId := 1, nextPostId := 1, nextCommentId := 1, now := 0 }

def w9UserA : User :=
  { id := 1, name := "A", email := "a@x", password := "h", username := none,
    tier := "free", role := "user",
    followers_count := 0, following_count := 0, posts_count := 2 }

def w9UserB : User :=
  { id := 2, name := "B", email := "b@x", password := "h", username := none,
    tier := "free", role := "user",
    followers_count := 0, following_count := 0, posts_count := 1 }

def w9Post1 : Post :=
  { id := 1, user_id := 1, content := "diary A", media_url := none, media_type := none,
    visibility := "private", likes_count := 0, comments_count := 0, shares_count := 0,
    created_at := 1 }

def w9Post2 : Post :=
  { id := 2, user_id := 2, content := "diary B", media_url := none, media_type := none,
    visibility := "private", likes_count := 0, comments_count := 0, shares_count := 0,
    created_at := 2 }

def w9Post3 : Post :=
  { id := 3, user_id := 1, content := "hello world", media_url := none, media_type := none,
    visibility := "public", likes_count := 0, comments_count := 0, shares_count := 0,
    created_at := 3 }

def w9DB : DB :=
  { users := [w9UserA, w9UserB], posts := [w9Post1, w9Post2, w9Post3], likes := [],
    comments := [], follows := [], shares := [], nextUserId := 3, nextPostId := 4,
    nextCommentId := 1, now := 4 }

def w10Body : RegisterBody :=
  { name := some "Carol", email := some "carol@x", password := some "longpass8",
    username := some "carol", tier := some "premium" }

def w10DB : DB :=
  { users := [], posts := [], likes := [], comments := [], follows := [], shares := [],
    nextUserId := 1, nextPostId := 1, nextCommentId := 1, now := 0 }

/-! Helper lemmas. -/

theorem orderedIns_perm (le : α → α → Bool) (a : α) (l : List α) :
    (orderedIns le a l).Perm (a :: l) := by
  induction l with
  | nil => rfl
  | cons b t ih =>
    unfold orderedIns
    by_cases h : le a b = true
    · simp [h]
    · simp only [if_neg h]
      exact (ih.cons b).trans (List.Perm.swap a b t)

theorem sortRows_perm (le : α → α → Bool) (l : List α) : (sortRows le l).Perm l := by
  induction l with
  | nil => rfl
  | cons a t ih =>
    unfold sortRows
    exact (orderedIns_perm le a (sortRows le t)).trans (ih.cons a)

theorem countP_comp_eq (p : α → Bool) (f : α → α) (h : ∀ a, p (f a) = p a) (l : List α) :
    (l.map f).countP p = l.countP p := by
  induction l with
  | nil => rfl
  | cons a t ih => simp [List.countP_cons, h a, ih]

theorem countP_filter_not_add (p r : α → Bool) (l : List α) :
    (l.filter (fun a => !r a)).countP p + l.countP (fun a => p a && r a) = l.countP p := by
  induction l with
  | nil => rfl
  | cons a t ih =>
    by_cases hr : r a = true <;> by_cases hp : p a = true <;>
      simp [List.countP_cons, List.filter_cons, hr, hp] <;> omega

theorem countP_and_eq_of_imp (p r : α → Bool) (l : List α)
    (h : ∀ a ∈ l, r a = true → p a = true) :
    l.countP (fun a => p a && r a) = l.countP r := by
  induction l with
  | nil => rfl
  | cons a t ih =>
    have ht : ∀ x ∈ t, r x = true → p x = true := fun x hx => h x (List.mem_cons_of_mem a hx)
    by_cases hr : r a = true
    · have hp : p a = true := h a (List.mem_cons_self a t) hr
      simp [List.countP_cons, hr, hp, ih ht]
    · simp [List.countP_cons, hr, ih ht]

theorem countP_key_one {β : Type} [BEq β] [LawfulBEq β] (f : α → β) (l : List α)
    (hn : (l.map f).Nodup) (a : α) (ha : a ∈ l) :
    l.countP (fun x => f x == f a) = 1 := by
  induction l with
  | nil => cases ha
  | cons b t ih =>
    simp only [List.map_cons, List.nodup_cons] at hn
    rcases List.mem_cons.mp ha with rfl | hat
    · have h0 : t.countP (fun x => f x == f a) = 0 := by
        rw [List.countP_eq_zero]
        intro x hx hbeq
        exact hn.1 (by rw [← eq_of_beq hbeq]; exact List.mem_map_of_mem f hx)
      simp [List.countP_cons, h0]
    · have hne : (f b == f a) = false := by
        by_contra hcon
        rw [Bool.not_eq_false] at hcon
        exact hn.1 (eq_of_beq hcon ▸ List.mem_map_of_mem f hat)
      simp [List.countP_cons, hne, ih hn.2 hat]

theorem find?_double_map (l : List User) (f g : User → User)
    (hf : ∀ x, (f x).id = x.id) (hg : ∀ x, (g x).id = x.id) (k : Nat) :
    ((l.map f).map g).find? (fun usr => usr.id == k) =
      (l.find? (fun usr => usr.id == k)).map (fun x => g (f x)) := by
  rw [List.map_map, List.find?_map]
  have hcomp : ((fun usr : User => usr.id == k) ∘ (g ∘ f)) = (fun usr : User => usr.id == k) := by
    funext x
    simp [Function.comp, hf, hg]
  rw [hcomp]
  rfl

theorem wellFormed_to_prop (db : DB) (h : wellFormed db = true) : WFProp db := by
  unfold wellFormed at h
  simp only [Bool.and_eq_true, decide_eq_true_eq, List.all_eq_true, List.elem_eq_mem,
    List.contains, postIds, commentIds] at h
  obtain ⟨⟨⟨⟨⟨⟨⟨⟨h1, h2⟩, h3⟩, h4⟩, h5⟩, h6⟩, h7⟩, h8⟩, h9⟩ := h
  refine ⟨h1, ?_, ?_, ?_, ?_, h6, h7, ?_, ?_⟩
  · exact fun p hp => h2 p.id (List.mem_map_of_mem _ hp)
  · exact fun l hl => by simpa using h3 l hl
  · exact fun cm hcm => by simpa using h4 cm hcm
  · exact fun s hs => by simpa using h5 s hs
  · exact fun cm hcm => h8 cm.id (List.mem_map_of_mem _ hcm)
  · intro cm hcm pc hpc
    have := h9 cm hcm
    rw [hpc] at this
    simp only [Bool.and_eq_true, List.any_eq_true, List.all_eq_true, Bool.or_eq_true,
      Bool.not_eq_true', beq_iff_eq, beq_eq_false_iff_ne] at this
    refine ⟨this.1, fun c hc hcid => ?_⟩
    rcases this.2 c hc with hne | heq
    · exact absurd hcid hne
    · exact heq

/-! Claim theorems. -/

/-- C4: `requireTier` allows a request exactly when the claims tier's level
reaches the required tier's level under free(1) < premium(2) < enterprise(3);
on the share route's gate (`requireTier 'premium'`) a free-tier caller is
denied with 403 and a response carrying `required: "premium"`, while premium
and enterprise callers pass. -/
theorem spec_C4_requireTier (u : UserClaims) (minTier : String) :
    (requireTier minTier (some u) = .allow ↔ tierLevel minTier ≤ tierLevel u.tier) ∧
    (tierLevel "free" = 1 ∧ tierLevel "premium" = 2 ∧ tierLevel "enterprise" = 3) ∧
    (u.tier = "free" → requireTier "premium" (some u) = .deny 403 (some "premium") (some "free")) ∧
    (u.tier = "premium" → requireTier "premium" (some u) = .allow) ∧
    (u.tier = "enterprise" → requireTier "premium" (some u) = .allow) := by
  refine ⟨?_, by decide, ?_, ?_, ?_⟩
  · unfold requireTier
    by_cases h : tierLevel u.tier < tierLevel minTier
    · simp only [if_pos h]
      constructor
      · intro hcon; cases hcon
      · omega
    · simp only [if_neg h]
      constructor
      · intro _; omega
      · intro _; trivial
  · intro h; simp [requireTier, tierLevel, h]
  · intro h; simp [requireTier, tierLevel, h]
  · intro h; simp [requireTier, tierLevel, h]

/-- Witness for C4 at concrete claims records of each tier. -/
theorem spec_C4_witness :
    requireTier "premium" (some ⟨1, "a@x", "free", "user", none⟩) =
        .deny 403 (some "premium") (some "free") ∧
    requireTier "premium" (some ⟨2, "b@x", "premium", "user", none⟩) = .allow ∧
    requireTier "premium" (some ⟨3, "c@x", "enterprise", "user", none⟩) = .allow :=
  ⟨(spec_C4_requireTier ⟨1, "a@x", "free", "user", none⟩ "premium").2.2.1 rfl,
   (spec_C4_requireTier ⟨2, "b@x", "premium", "user", none⟩ "premium").2.2.2.1 rfl,
   (spec_C4_requireTier ⟨3, "c@x", "enterprise", "user", none⟩ "premium").2.2.2.2 rfl⟩

/-- C1 (code bug): `GET /api/posts/:id` in the final draft takes no
credentials at all — the route has no middleware and never reads the
Authorization header — and returns 200 with the full body of an existing
post whose visibility is `private` to an unauthenticated caller, where the
spec requires 401 for unauthenticated and 403 for non-owner callers.  (The
earlier draft in part_000 lines 283-334 did implement exactly the specified
401/403 owner check.) -/
theorem spec_C1_private_post_leak :
    c1Post.visibility = "private" ∧
    getPostById c1DB (some 1) = (200, some (c1Post, c1Owner)) := by decide

/-- C3 counterexample: a `POST /api/posts` body with the out-of-enum
visibility value `"bananas"` is not rejected with 400 — the handler answers
201 and silently stores visibility `"public"`. -/
theorem spec_C3_counterexample :
    (createPost c3DB c3User ⟨some "hello", none, none, some "bananas"⟩).1.1 = 201 ∧
    ((createPost c3DB c3User ⟨some "hello", none, none, some "bananas"⟩).1.2.map
      Post.visibility) = some "public" := by decide

/-- C3 amended: for a valid body, `POST /api/posts` never rejects on
visibility; the stored and echoed visibility is the submitted value when it
lies in the enum and the default `"public"` both when the field is omitted
and when it is invalid. -/
theorem spec_C3_amended (db : DB) (u : UserClaims) (b : PostBody)
    (hc : strTruthy b.content = true)
    (hne : (strTrim (b.content.getD "")).length ≠ 0)
    (hlen : (b.content.getD "").length ≤ 5000)
    (hmt : strTruthy b.media_type = false) :
    (createPost db u b).1.1 = 201 ∧
    ((createPost db u b).1.2.map Post.visibility) =
      some (match b.visibility with
        | some v => if validVisibility.contains v then v else "public"
        | none => "public") := by
  unfold createPost
  have h1 : (!(strTruthy b.content) || ((strTrim (b.content.getD "")).length == 0)) = false := by
    simp [hc, hne]
  have h2 : ¬(5000 < (b.content.getD "").length) := by omega
  have h3 : (strTruthy b.media_type &&
      !(["image", "video", "gif"].contains (b.media_type.getD ""))) = false := by
    simp [hmt]
  simp only [h1, h2, h3, Bool.false_eq_true, if_false, if_neg h2]
  exact ⟨trivial, rfl⟩

/-- Witness for C3 amended: invalid visibility is stored as public, a valid
non-default value is stored unchanged. -/
theorem spec_C3_witness :
    ((createPost c3DB c3User ⟨some "hey", none, none, some "wat"⟩).1.1 = 201 ∧
      ((createPost c3DB c3User ⟨some "hey", none, none, some "wat"⟩).1.2.map
        Post.visibility) = some "public") ∧
    ((createPost c3DB c3User ⟨some "hey", none, none, some "private"⟩).1.1 = 201 ∧
      ((createPost c3DB c3User ⟨some "hey", none, none, some "private"⟩).1.2.map
        Post.visibility) = some "private") :=
  ⟨spec_C3_amended c3DB c3User ⟨some "hey", none, none, some "wat"⟩
      (by decide) (by decide) (by decide) (by decide),
   spec_C3_amended c3DB c3User ⟨some "hey", none, none, some "private"⟩
      (by decide) (by decide) (by decide) (by decide)⟩

/-- C10: `POST /api/auth/register` honors a client-supplied tier.  For a
valid registration body, the created row and the signed claims carry the
submitted tier whenever it is one of free/premium/enterprise, fall back to
`"free"` for any other or omitted value, and the role is always `"user"`. -/
theorem spec_C10_register_tier (db : DB) (b : RegisterBody)
    (hn : strTruthy b.name = true) (he : strTruthy b.email = true)
    (hp : strTruthy b.password = true)
    (hlen : 8 ≤ (b.password.getD "").length)
    (hex : db.users.any (fun u =>
      u.email == b.email.getD "" || u.username == some (b.username.getD "")) = false) :
    (register db b).1.status = 201 ∧
    ((register db b).1.user.map User.role) = some "user" ∧
    ((register db b).1.token.map UserClaims.role) = some "user" ∧
    ((register db b).1.user.map User.tier) = ((register db b).1.token.map UserClaims.tier) ∧
    (∀ t, b.tier = some t → validTiers.contains t = true →
      ((register db b).1.user.map User.tier) = some t) ∧
    (b.tier = none → ((register db b).1.user.map User.tier) = some "free") ∧
    (∀ t, b.tier = some t → validTiers.contains t = false →
      ((register db b).1.user.map User.tier) = some "free") := by
  unfold register
  have h1 : (!(strTruthy b.name) || !(strTruthy b.email) || !(strTruthy b.password)) = false := by
    simp [hn, he, hp]
  have h2 : ¬((b.password.getD "").length < 8) := by omega
  simp only [h1, Bool.false_eq_true, if_false, if_neg h2, hex]
  refine ⟨trivial, rfl, rfl, rfl, ?_, ?_, ?_⟩
  · intro t ht hv
    have hv' : t ∈ validTiers := by simpa using hv
    simp [Option.map, ht, hv']
  · intro ht
    simp [Option.map, ht]
  · intro t ht hv
    have hv' : t ∉ validTiers := by simpa using hv
    simp [Option.map, ht, hv']

/-- Witness for C10: a concrete registration that self-assigns the premium
tier receives a user row and token claims with tier premium and role user. -/
theorem spec_C10_witness :
    (register w10DB w10Body).1.status = 201 ∧
    ((register w10DB w10Body).1.user.map User.role) = some "user" ∧
    ((register w10DB w10Body).1.token.map UserClaims.role) = some "user" ∧
    ((register w10DB w10Body).1.user.map User.tier) =
      ((register w10DB w10Body).1.token.map UserClaims.tier) ∧
    (∀ t, w10Body.tier = some t → validTiers.contains t = true →
      ((register w10DB w10Body).1.user.map User.tier) = some t) ∧
    (w10Body.tier = none → ((register w10DB w10Body).1.user.map User.tier) = some "free") ∧
    (∀ t, w10Body.tier = some t → validTiers.contains t = false →
      ((register w10DB w10Body).1.user.map User.tier) = some "free") :=
  spec_C10_register_tier w10DB w10Body (by decide) (by decide) (by decide) (by decide) (by decide)

/-- C6: on `PUT` and `DELETE /api/posts/:id`, a missing post yields 404 for
every requester (the existence check precedes any ownership check); for an
existing post, DELETE passes the 403 gate exactly for the owner or an admin
role, PUT passes it only for the owner, and every other requester gets 403
with the store untouched. -/
theorem spec_C6_put_delete_auth (db : DB) (u : UserClaims) (pid : Nat) (b : UpdateBody) :
    (db.posts.filter (fun p => p.id == pid) = [] →
        updatePost db u (some pid) b = (404, db) ∧ deletePost db u (some pid) = (404, db)) ∧
    (∀ post rest, db.posts.filter (fun p => p.id == pid) = post :: rest →
        ((post.user_id = u.userId ∨ u.role = "admin") → (deletePost db u (some pid)).1 = 200) ∧
        (¬(post.user_id = u.userId ∨ u.role = "admin") → deletePost db u (some pid) = (403, db)) ∧
        (post.user_id ≠ u.userId → updatePost db u (some pid) b = (403, db)) ∧
        (post.user_id = u.userId → (updatePost db u (some pid) b).1 ≠ 403)) := by
  constructor
  · intro hnil
    simp only [updatePost, deletePost]
    rw [hnil]
    exact ⟨rfl, rfl⟩
  · intro post rest hcons
    simp only [updatePost, deletePost]
    rw [hcons]
    refine ⟨?_, ?_, ?_, ?_⟩
    · intro hperm
      have hcond : (!(post.user_id == u.userId) && !(u.role == "admin")) = false := by
        rcases hperm with h | h <;> simp [h]
      simp [hcond]
    · intro hperm
      push_neg at hperm
      have hcond : (!(post.user_id == u.userId) && !(u.role == "admin")) = true := by
        simp [hperm.1, hperm.2]
      simp [hcond]
    · intro hne
      have hcond : (post.user_id == u.userId) = false := by simp [hne]
      simp [hcond]
    · intro heq
      have hcond : (!(post.user_id == u.userId)) = false := by simp [heq]
      simp only [hcond, Bool.false_eq_true, if_false]
      split
      · simp
      · split
        · simp
        · split
          · simp
          · simp

/-- Witness for C6 at a concrete store: admin delete passes, non-owner delete
and update get 403 with the store unchanged, a missing post gives 404, and an
owner update is not rejected with 403. -/
theorem spec_C6_witness :
    (deletePost w6DB w6Admin (some 1)).1 = 200 ∧
    deletePost w6DB w6Other (some 1) = (403, w6DB) ∧
    updatePost w6DB w6Other (some 1) ⟨some "x", none, none, none⟩ = (403, w6DB) ∧
    updatePost w6DB w6Other (some 99) ⟨some "x", none, none, none⟩ = (404, w6DB) ∧
    (updatePost w6DB w6Owner (some 1) ⟨some "x", none, none, none⟩).1 ≠ 403 :=
  ⟨((spec_C6_put_delete_auth w6DB w6Admin 1 ⟨some "x", none, none, none⟩).2 w6Post []
      (by decide)).1 (Or.inr rfl),
   ((spec_C6_put_delete_auth w6DB w6Other 1 ⟨some "x", none, none, none⟩).2 w6Post []
      (by decide)).2.1 (by decide),
   ((spec_C6_put_delete_auth w6DB w6Other 1 ⟨some "x", none, none, none⟩).2 w6Post []
      (by decide)).2.2.1 (by decide),
   ((spec_C6_put_delete_auth w6DB w6Other 99 ⟨some "x", none, none, none⟩).1 (by decide)).1,
   ((spec_C6_put_delete_auth w6DB w6Owner 1 ⟨some "x", none, none, none⟩).2 w6Post []
      (by decide)).2.2.2 rfl⟩

/-- C5: the follow toggle rejects self-follow with 400; otherwise, for an
existing target, an existing (requester, target) row is deleted with both
stored counters decremented by exactly one (action "unfollowed"), and an
absent row is inserted with both stored counters incremented by exactly one
(action "followed"). -/
theorem spec_C5_follow_toggle (db : DB) (u : UserClaims) (targetId : Nat) :
    (targetId = u.userId → followToggle db u (some targetId) = ((400, none), db)) ∧
    (targetId ≠ u.userId →
      (db.users.filter (fun usr => usr.id == targetId)).length ≠ 0 →
      (0 < (db.follows.filter (followPair u.userId targetId)).length →
        (followToggle db u (some targetId)).1 = (200, some "unfollowed") ∧
        (followToggle db u (some targetId)).2.follows =
          db.follows.filter (fun f => !(followPair u.userId targetId f)) ∧
        (∀ mu, userById db u.userId = some mu →
          userById (followToggle db u (some targetId)).2 u.userId =
            some { mu with following_count := mu.following_count - 1 }) ∧
        (∀ tu, userById db targetId = some tu →
          userById (followToggle db u (some targetId)).2 targetId =
            some { tu with followers_count := tu.followers_count - 1 })) ∧
      ((db.follows.filter (followPair u.userId targetId)).length = 0 →
        (followToggle db u (some targetId)).1 = (200, some "followed") ∧
        (followToggle db u (some targetId)).2.follows = ⟨u.userId, targetId⟩ :: db.follows ∧
        (∀ mu, userById db u.userId = some mu →
          userById (followToggle db u (some targetId)).2 u.userId =
            some { mu with following_count := mu.following_count + 1 }) ∧
        (∀ tu, userById db targetId = some tu →
          userById (followToggle db u (some targetId)).2 targetId =
            some { tu with followers_count := tu.followers_count + 1 }))) := by
  constructor
  · intro h
    have hself : (targetId == u.userId) = true := by simp [h]
    simp only [followToggle, followToggleOn, hself, if_true]
  · intro hne hex
    have hself : (targetId == u.userId) = false := by simp [hne]
    have hexlen : ((db.users.filter (fun usr => usr.id == targetId)).length == 0) = false := by
      simp only [beq_eq_false_iff_ne]
      exact hex
    simp only [followToggle, followToggleOn, hself, Bool.false_eq_true, if_false, hexlen]
    have hMT : (u.userId == targetId) = false := by
      rw [beq_eq_false_iff_ne]
      exact Ne.symm hne
    have hTM : (targetId == u.userId) = false := by
      rw [beq_eq_false_iff_ne]
      exact hne
    constructor
    · intro hpos
      rw [if_pos hpos]
      refine ⟨by trivial, by trivial, ?_, ?_⟩
      · intro mu hmu
        unfold userById at hmu ⊢
        rw [find?_double_map _ _ _
          (fun x => by split <;> rfl) (fun x => by split <;> rfl), hmu]
        have hid : mu.id = u.userId := by simpa using List.find?_some hmu
        simp [hid, hne, Ne.symm hne]
      · intro tu htu
        unfold userById at htu ⊢
        rw [find?_double_map _ _ _
          (fun x => by split <;> rfl) (fun x => by split <;> rfl), htu]
        have hid : tu.id = targetId := by simpa using List.find?_some htu
        simp [hid, hne, Ne.symm hne]
    · intro hzero
      have hnopos : ¬(0 < (db.follows.filter (followPair u.userId targetId)).length) := by omega
      rw [if_neg hnopos]
      have hany : (db.follows.any (followPair u.userId targetId)) = false := by
        rw [List.any_eq_false]
        intro f hf
        have := List.filter_eq_nil_iff.mp (List.length_eq_zero.mp hzero) f hf
        simpa using this
      simp only [hany, Bool.false_eq_true, if_false]
      refine ⟨by trivial, by trivial, ?_, ?_⟩
      · intro mu hmu
        unfold userById at hmu ⊢
        rw [find?_double_map _ _ _
          (fun x => by split <;> rfl) (fun x => by split <;> rfl), hmu]
        have hid : mu.id = u.userId := by simpa using List.find?_some hmu
        simp [hid, hne, Ne.symm hne]
      · intro tu htu
        unfold userById at htu ⊢
        rw [find?_double_map _ _ _
          (fun x => by split <;> rfl) (fun x => by split <;> rfl), htu]
        have hid : tu.id = targetId := by simpa using List.find?_some htu
        simp [hid, hne, Ne.symm hne]

/-- Witness for C5 at a concrete store where user 2 follows user 1: the
toggle unfollows and decrements both counters; a second toggle from the
resulting state follows again and increments both counters; self-follow is
rejected with 400. -/
theorem spec_C5_witness :
    ((followToggle w5DB w5Claims (some 1)).1 = (200, some "unfollowed") ∧
      userById (followToggle w5DB w5Claims (some 1)).2 w5Claims.userId =
        some { w5UserB with following_count := w5UserB.following_count - 1 } ∧
      userById (followToggle w5DB w5Claims (some 1)).2 1 =
        some { w5UserA with followers_count := w5UserA.followers_count - 1 }) ∧
    ((followToggle { w5DB with follows := [] } w5Claims (some 1)).1 = (200, some "followed") ∧
      (followToggle { w5DB with follows := [] } w5Claims (some 1)).2.follows =
        ⟨w5Claims.userId, 1⟩ :: ({ w5DB with follows := ([] : List FollowRow) } : DB).follows) ∧
    followToggle w5DB w5Claims (some 2) = ((400, none), w5DB) := by
  refine ⟨?_, ?_, (spec_C5_follow_toggle w5DB w5Claims 2).1 rfl⟩
  · have h := ((spec_C5_follow_toggle w5DB w5Claims 1).2 (by decide) (by decide)).1 (by decide)
    exact ⟨h.1, h.2.2.1 w5UserB (by decide), h.2.2.2 w5UserA (by decide)⟩
  · have h := ((spec_C5_follow_toggle { w5DB with follows := [] } w5Claims 1).2
      (by decide) (by decide)).2 (by decide)
    exact ⟨h.1, h.2.1⟩

/-- C2 counterexample: at a concrete pair of read/write snapshots exhibiting
the duplicate-insert race, the like handler and the follow toggle both answer
500 — the store-level uniqueness violation reaches the generic catch-all and
is not translated to 409 (like) nor to a no-op success (follow). -/
theorem spec_C2_counterexample :
    likePostOn c2ReadDB c2WriteDB c2Claims (some 10) = (500, c2WriteDB) ∧
    followToggleOn c2ReadDB c2WriteDB c2Claims (some 1) = ((500, none), c2WriteDB) := by decide

/-- C2 amended: a store write that raises a uniqueness-constraint violation
is caught by the handler's catch-all and returned as 500, not 409; the follow
toggle returns 500 (not an "already followed" no-op) when its INSERT hits the
unique constraint, and a DELETE that affects zero rows is reported as an
ordinary "unfollowed" success while both counters are still decremented. -/
theorem spec_C2_amended (readDb writeDb : DB) (u : UserClaims) (postId targetId : Nat) :
    ((readDb.posts.filter (fun p => p.id == postId)).length ≠ 0 →
      (readDb.likes.filter (likePair postId u.userId)).length = 0 →
      writeDb.likes.any (likePair postId u.userId) = true →
      likePostOn readDb writeDb u (some postId) = (500, writeDb)) ∧
    (targetId ≠ u.userId →
      (readDb.users.filter (fun usr => usr.id == targetId)).length ≠ 0 →
      (readDb.follows.filter (followPair u.userId targetId)).length = 0 →
      writeDb.follows.any (followPair u.userId targetId) = true →
      followToggleOn readDb writeDb u (some targetId) = ((500, none), writeDb)) ∧
    (targetId ≠ u.userId →
      (readDb.users.filter (fun usr => usr.id == targetId)).length ≠ 0 →
      0 < (readDb.follows.filter (followPair u.userId targetId)).length →
      writeDb.follows.all (fun f => !(followPair u.userId targetId f)) = true →
      (followToggleOn readDb writeDb u (some targetId)).1 = (200, some "unfollowed") ∧
      (followToggleOn readDb writeDb u (some targetId)).2.follows = writeDb.follows ∧
      (∀ mu, userById writeDb u.userId = some mu →
        userById (followToggleOn readDb writeDb u (some targetId)).2 u.userId =
          some { mu with following_count := mu.following_count - 1 }) ∧
      (∀ tu, userById writeDb targetId = some tu →
        userById (followToggleOn readDb writeDb u (some targetId)).2 targetId =
          some { tu with followers_count := tu.followers_count - 1 })) := by
  refine ⟨?_, ?_, ?_⟩
  · intro hpost hnolike hconflict
    have h1 : ((readDb.posts.filter (fun p => p.id == postId)).length == 0) = false := by
      rw [beq_eq_false_iff_ne]; exact hpost
    have h2 : ¬(0 < (readDb.likes.filter (likePair postId u.userId)).length) := by omega
    simp only [likePostOn, h1, Bool.false_eq_true, if_false, if_neg h2, hconflict, if_true]
  · intro hne hex hzero hconflict
    have hself : (targetId == u.userId) = false := by
      rw [beq_eq_false_iff_ne]; exact hne
    have h1 : ((readDb.users.filter (fun usr => usr.id == targetId)).length == 0) = false := by
      rw [beq_eq_false_iff_ne]; exact hex
    have h2 : ¬(0 < (readDb.follows.filter (followPair u.userId targetId)).length) := by omega
    simp only [followToggleOn, hself, Bool.false_eq_true, if_false, h1, if_neg h2,
      hconflict, if_true]
  · intro hne hex hpos hzerorows
    have hself : (targetId == u.userId) = false := by
      rw [beq_eq_false_iff_ne]; exact hne
    have h1 : ((readDb.users.filter (fun usr => usr.id == targetId)).length == 0) = false := by
      rw [beq_eq_false_iff_ne]; exact hex
    simp only [followToggleOn, hself, Bool.false_eq_true, if_false, h1, if_pos hpos]
    refine ⟨by trivial, ?_, ?_, ?_⟩
    · exact List.filter_eq_self.mpr (List.all_eq_true.mp hzerorows)
    · intro mu hmu
      unfold userById at hmu ⊢
      rw [find?_double_map _ _ _
        (fun x => by split <;> rfl) (fun x => by split <;> rfl), hmu]
      have hid : mu.id = u.userId := by simpa using List.find?_some hmu
      simp [hid, hne, Ne.symm hne]
    · intro tu htu
      unfold userById at htu ⊢
      rw [find?_double_map _ _ _
        (fun x => by split <;> rfl) (fun x => by split <;> rfl), htu]
      have hid : tu.id = targetId := by simpa using List.find?_some htu
      simp [hid, hne, Ne.symm hne]

/-- Witness for C2 amended, at the concrete racing snapshots: the like insert
race and the follow insert race both answer 500, and a zero-row unfollow
still answers "unfollowed" while driving user 2's `following_count` and user
1's `followers_count` from 0 to -1. -/
theorem spec_C2_witness :
    likePostOn c2ReadDB c2WriteDB c2Claims (some 10) = (500, c2WriteDB) ∧
    followToggleOn c2ReadDB c2WriteDB c2Claims (some 1) = ((500, none), c2WriteDB) ∧
    ((followToggleOn c2WriteDB c2ReadDB c2Claims (some 1)).1 = (200, some "unfollowed") ∧
      (followToggleOn c2WriteDB c2ReadDB c2Claims (some 1)).2.follows = c2ReadDB.follows ∧
      userById (followToggleOn c2WriteDB c2ReadDB c2Claims (some 1)).2 c2Claims.userId =
        some { c2UserB with following_count := 0 - 1 } ∧
      userById (followToggleOn c2WriteDB c2ReadDB c2Claims (some 1)).2 1 =
        some { c2UserA with followers_count := 0 - 1 }) := by
  refine ⟨?_, ?_, ?_⟩
  · exact (spec_C2_amended c2ReadDB c2WriteDB c2Claims 10 1).1 (by decide) (by decide) (by decide)
  · exact (spec_C2_amended c2ReadDB c2WriteDB c2Claims 10 1).2.1 (by decide) (by decide)
      (by decide) (by decide)
  · have h := (spec_C2_amended c2WriteDB c2ReadDB c2Claims 10 1).2.2 (by decide) (by decide)
      (by decide) (by decide)
    exact ⟨h.1, h.2.1, h.2.2.1 { c2UserB with following_count := 0 } (by decide),
      h.2.2.2 { c2UserA with followers_count := 0 } (by decide)⟩

/-- C8 counterexample: `GET /api/posts` accepts `limit=-5&offset=-3` — the
request succeeds with 200, the effective limit is -5 (below any lower bound;
in SQLite a negative LIMIT means "no limit") and the negative offset is
accepted and echoed rather than rejected. -/
theorem spec_C8_counterexample :
    listPosts c8DB (some "-5") (some "-3") none none none = (200, some (⟨-5, -3, 0⟩, [])) ∧
    (-5 : Int) < 0 ∧ (-3 : Int) < 0 := by decide

/-- C8 amended: on every 200 response of `GET /api/posts` the effective limit
is `min(parseInt(limit || '20'), 100)` — capped above by 100 but with no lower
bound — the offset is `parseInt(offset || '0')` with no non-negativity check,
and the response echoes the effective limit, the offset, and the number of
returned rows. -/
theorem spec_C8_amended (db : DB) (limitP offsetP sortP visP userP : Option String)
    (pg : Pagination × List (Post × User))
    (h : listPosts db limitP offsetP sortP visP userP = (200, some pg)) :
    pg.1.limit ≤ 100 ∧
    pg.1.count = pg.2.length ∧
    (∃ n, jsParseInt (orTruthy limitP "20") = some n ∧ pg.1.limit = jsMin n 100) ∧
    (∃ m, jsParseInt (orTruthy offsetP "0") = some m ∧ pg.1.offset = m) := by
  unfold listPosts at h
  rcases hL : jsParseInt (orTruthy limitP "20") with _ | rawLimit
  · rw [hL] at h
    rcases jsParseInt (orTruthy offsetP "0") with _ | off <;> simp at h
  · rcases hO : jsParseInt (orTruthy offsetP "0") with _ | off
    · rw [hL, hO] at h
      simp at h
    · rw [hL, hO] at h
      rcases hU : (if strTruthy userP = true then
          match jsParseInt (userP.getD "") with
          | some uid => some (some uid)
          | none => none
        else some none : Option (Option Int)) with _ | uidFilter
      · rw [hU] at h
        simp at h
      · rw [hU] at h
        simp only [Prod.mk.injEq, Option.some.injEq] at h
        obtain ⟨-, hpg⟩ := h
        subst hpg
        refine ⟨?_, rfl, ⟨rawLimit, rfl, rfl⟩, ⟨off, rfl, rfl⟩⟩
        show jsMin rawLimit 100 ≤ 100
        unfold jsMin
        split <;> omega

/-- Witness for C8 amended at a concrete request (`limit=7`, `offset=2`). -/
theorem spec_C8_witness :
    (listPosts c8DB (some "7") (some "2") none none none).2 = some (⟨7, 2, 0⟩, []) ∧
    ((7 : Int) ≤ 100 ∧ (⟨7, 2, 0⟩ : Pagination).count = ([] : List (Post × User)).length ∧
      (∃ n, jsParseInt (orTruthy (some "7") "20") = some n ∧ (7 : Int) = jsMin n 100) ∧
      (∃ m, jsParseInt (orTruthy (some "2") "0") = some m ∧ (2 : Int) = m)) :=
  ⟨by decide,
   spec_C8_amended c8DB (some "7") (some "2") none none none (⟨7, 2, 0⟩, []) (by decide)⟩

/-- When every post's owner filter hits exactly one user row (primary key +
referential integrity), the post/user join projects back onto the posts. -/
theorem joinRows_map_fst (db : DB)
    (hjoin : ∀ p ∈ db.posts, (db.users.filter (fun usr => usr.id == p.user_id)).length = 1) :
    (joinRows db).map Prod.fst = db.posts := by
  unfold joinRows
  suffices h : ∀ ps : List Post,
      (∀ p ∈ ps, (db.users.filter (fun usr => usr.id == p.user_id)).length = 1) →
      ((ps.flatMap (fun p =>
        (db.users.filter (fun usr => usr.id == p.user_id)).map (fun usr => (p, usr)))).map
          Prod.fst) = ps by
    exact h db.posts hjoin
  intro ps hps
  induction ps with
  | nil => rfl
  | cons p t ih =>
    obtain ⟨usr, husr⟩ := List.length_eq_one.mp (hps p (List.mem_cons_self p t))
    simp only [List.flatMap_cons, List.map_append, husr, List.map_cons, List.map_nil]
    rw [ih (fun q hq => hps q (List.mem_cons_of_mem p hq))]
    rfl

/-- C9: the unauthenticated `GET /api/posts` endpoint passes the
caller-supplied visibility value straight into the row filter; with
`visibility=private` (and default pagination covering the result set) the
response lists exactly the private posts of every user, with no
authentication involved anywhere (the handler takes no credentials). -/
theorem spec_C9_visibility_leak (db : DB)
    (hjoin : ∀ p ∈ db.posts, (db.users.filter (fun usr => usr.id == p.user_id)).length = 1)
    (hsize : (db.posts.filter (fun p => p.visibility == "private")).length ≤ 20) :
    (listPosts db none none none (some "private") none).1 = 200 ∧
    ∃ pg : Pagination × List (Post × User),
      (listPosts db none none none (some "private") none).2 = some pg ∧
      pg.1 = ⟨20, 0, pg.2.length⟩ ∧
      (pg.2.map Prod.fst).Perm (db.posts.filter (fun p => p.visibility == "private")) := by
  have hform : listPosts db none none none (some "private") none =
      (200, some
        (⟨20, 0, ((sortRows (postOrder "recent")
            ((joinRows db).filter (fun r : Post × User => r.1.visibility == "private"))).take
              20).length⟩,
          (sortRows (postOrder "recent")
            ((joinRows db).filter (fun r : Post × User => r.1.visibility == "private"))).take
            20)) := rfl
  have hmapfst : (((joinRows db).filter
        (fun r : Post × User => r.1.visibility == "private")).map Prod.fst) =
      db.posts.filter (fun p => p.visibility == "private") := by
    conv_rhs => rw [← joinRows_map_fst db hjoin]
    rw [List.filter_map]
    rfl
  have hsp := sortRows_perm (postOrder "recent")
    ((joinRows db).filter (fun r : Post × User => r.1.visibility == "private"))
  have hlen : (sortRows (postOrder "recent")
      ((joinRows db).filter (fun r : Post × User => r.1.visibility == "private"))).length ≤ 20 := by
    rw [hsp.length_eq, ← List.length_map _ Prod.fst, hmapfst]
    exact hsize
  have htake := List.take_of_length_le hlen
  refine ⟨by rw [hform], ⟨_, by rw [hform], rfl, ?_⟩⟩
  show ((((sortRows (postOrder "recent")
        ((joinRows db).filter (fun r : Post × User => r.1.visibility == "private"))).take
          20).map Prod.fst)).Perm _
  rw [htake, ← hmapfst]
  exact hsp.map Prod.fst

/-- Witness for C9: at a concrete store holding private posts of two distinct
users, the anonymous listing returns exactly those two private posts. -/
theorem spec_C9_witness :
    (listPosts w9DB none none none (some "private") none).1 = 200 ∧
    ∃ pg : Pagination × List (Post × User),
      (listPosts w9DB none none none (some "private") none).2 = some pg ∧
      pg.1 = ⟨20, 0, pg.2.length⟩ ∧
      (pg.2.map Prod.fst).Perm (w9DB.posts.filter (fun p => p.visibility == "private")) :=
  spec_C9_visibility_leak w9DB (by decide) (by decide)

theorem filter_nonempty_exists (p : α → Bool) (l : List α)
    (h : ¬(((l.filter p).length == 0) = true)) : ∃ a ∈ l, p a = true := by
  by_contra hcon
  push_neg at hcon
  have hnil : l.filter p = [] :=
    List.filter_eq_nil_iff.mpr (fun a ha => by simpa using hcon a ha)
  exact h (by rw [hnil]; rfl)

theorem preserve_like (db : DB) (u : UserClaims) (pid : Option Nat)
    (hc : countersOK db) (hw : WFProp db) :
    countersOK (likePost db u pid).2 ∧ WFProp (likePost db u pid).2 := by
  obtain ⟨hcp, hcu⟩ := hc
  obtain ⟨w1, w2, w3, w4, w5, w6, w7, w8, w9⟩ := hw
  cases pid with
  | none => exact ⟨⟨hcp, hcu⟩, w1, w2, w3, w4, w5, w6, w7, w8, w9⟩
  | some postId =>
    simp only [likePost, likePostOn]
    split
    next => exact ⟨⟨hcp, hcu⟩, w1, w2, w3, w4, w5, w6, w7, w8, w9⟩
    next h404 =>
    split
    next => exact ⟨⟨hcp, hcu⟩, w1, w2, w3, w4, w5, w6, w7, w8, w9⟩
    next h409 =>
    split
    next => exact ⟨⟨hcp, hcu⟩, w1, w2, w3, w4, w5, w6, w7, w8, w9⟩
    next h500 =>
    obtain ⟨q0, hq0, hq0id⟩ := filter_nonempty_exists _ _ h404
    have hidsEq : ((db.posts.map (fun p =>
        if p.id == postId then { p with likes_count := p.likes_count + 1 } else p)).map
          (fun p => p.id)) = db.posts.map (fun p => p.id) := by
      rw [List.map_map]
      have hfun : ((fun p : Post => p.id) ∘ (fun p =>
          if p.id == postId then { p with likes_count := p.likes_count + 1 } else p)) =
          (fun p : Post => p.id) := by
        funext p
        show (if (p.id == postId) = true then { p with likes_count := p.likes_count + 1 } else p).id
          = p.id
        split <;> rfl
      rw [hfun]
    refine ⟨⟨?_, ?_⟩, ?_, ?_, ?_, ?_, ?_, w6, w7, w8, w9⟩
    · intro p' hp'
      rw [List.mem_map] at hp'
      obtain ⟨q, hq, rfl⟩ := hp'
      have h := hcp q hq
      by_cases hid : (q.id == postId) = true
      · rw [if_pos hid]
        refine ⟨?_, h.2.1, h.2.2⟩
        have hbeq : (postId == q.id) = true := by
          have hqp : q.id = postId := by simpa using hid
          simp [hqp]
        have hcnt : List.countP (fun l => l.post_id == q.id)
            (({ post_id := postId, user_id := u.userId } : LikeRow) :: db.likes) =
            List.countP (fun l => l.post_id == q.id) db.likes + 1 := by
          rw [List.countP_cons]
          simp [hbeq]
        show q.likes_count + 1 = (List.countP (fun l => l.post_id == q.id)
            (({ post_id := postId, user_id := u.userId } : LikeRow) :: db.likes) : Int)
        rw [hcnt]
        have h1 := h.1
        unfold likesCnt at h1
        omega
      · rw [if_neg hid]
        refine ⟨?_, h.2.1, h.2.2⟩
        have hbne : (postId == q.id) = false := by
          rw [beq_eq_false_iff_ne]
          intro hcon
          exact hid (by simp [hcon.symm])
        have hcnt : List.countP (fun l => l.post_id == q.id)
            (({ post_id := postId, user_id := u.userId } : LikeRow) :: db.likes) =
            List.countP (fun l => l.post_id == q.id) db.likes := by
          rw [List.countP_cons]
          simp [hbne]
        show q.likes_count = (List.countP (fun l => l.post_id == q.id)
            (({ post_id := postId, user_id := u.userId } : LikeRow) :: db.likes) : Int)
        rw [hcnt]
        exact h.1
    · intro usr husr
      have h := hcu usr husr
      refine ⟨?_, h.2.1, h.2.2⟩
      have hcnt : List.countP (fun p => p.user_id == usr.id) (db.posts.map (fun p =>
          if p.id == postId then { p with likes_count := p.likes_count + 1 } else p)) =
          List.countP (fun p => p.user_id == usr.id) db.posts := by
        apply countP_comp_eq
        intro a
        show ((if (a.id == postId) = true then { a with likes_count := a.likes_count + 1 }
          else a).user_id == usr.id) = (a.user_id == usr.id)
        split <;> rfl
      show usr.posts_count = (List.countP (fun p => p.user_id == usr.id) (db.posts.map (fun p =>
          if p.id == postId then { p with likes_count := p.likes_count + 1 } else p)) : Int)
      rw [hcnt]
      exact h.1
    · rw [hidsEq]; exact w1
    · intro p' hp'
      rw [List.mem_map] at hp'
      obtain ⟨q, hq, rfl⟩ := hp'
      have hlt := w2 q hq
      show (if (q.id == postId) = true then { q with likes_count := q.likes_count + 1 }
        else q).id < db.nextPostId
      split <;> exact hlt
    · intro l hl
      rw [hidsEq]
      rcases List.mem_cons.mp hl with rfl | hmem
      · show postId ∈ db.posts.map (fun p => p.id)
        have hqp : q0.id = postId := by simpa using hq0id
        exact hqp ▸ List.mem_map_of_mem _ hq0
      · exact w3 l hmem
    · intro cm hcm
      rw [hidsEq]
      exact w4 cm hcm
    · intro s hs
      rw [hidsEq]
      exact w5 s hs

theorem preserve_share (db : DB) (u : UserClaims) (pid : Option Nat)
    (hc : countersOK db) (hw : WFProp db) :
    countersOK (sharePost db u pid).2 ∧ WFProp (sharePost db u pid).2 := by
  obtain ⟨hcp, hcu⟩ := hc
  obtain ⟨w1, w2, w3, w4, w5, w6, w7, w8, w9⟩ := hw
  cases pid with
  | none => exact ⟨⟨hcp, hcu⟩, w1, w2, w3, w4, w5, w6, w7, w8, w9⟩
  | some postId =>
    simp only [sharePost]
    split
    next => exact ⟨⟨hcp, hcu⟩, w1, w2, w3, w4, w5, w6, w7, w8, w9⟩
    next h404 =>
    split
    next => exact ⟨⟨hcp, hcu⟩, w1, w2, w3, w4, w5, w6, w7, w8, w9⟩
    next h409 =>
    obtain ⟨q0, hq0, hq0id⟩ := filter_nonempty_exists _ _ h404
    have hidsEq : ((db.posts.map (fun p =>
        if p.id == postId then { p with shares_count := p.shares_count + 1 } else p)).map
          (fun p => p.id)) = db.posts.map (fun p => p.id) := by
      rw [List.map_map]
      have hfun : ((fun p : Post => p.id) ∘ (fun p =>
          if p.id == postId then { p with shares_count := p.shares_count + 1 } else p)) =
          (fun p : Post => p.id) := by
        funext p
        show (if (p.id == postId) = true then { p with shares_count := p.shares_count + 1 } else p).id
          = p.id
        split <;> rfl
      rw [hfun]
    refine ⟨⟨?_, ?_⟩, ?_, ?_, ?_, ?_, ?_, w6, w7, w8, w9⟩
    · intro p' hp'
      rw [List.mem_map] at hp'
      obtain ⟨q, hq, rfl⟩ := hp'
      have h := hcp q hq
      by_cases hid : (q.id == postId) = true
      · rw [if_pos hid]
        refine ⟨h.1, h.2.1, ?_⟩
        have hbeq : (postId == q.id) = true := by
          have hqp : q.id = postId := by simpa using hid
          simp [hqp]
        have hcnt : List.countP (fun s => s.post_id == q.id)
            (({ post_id := postId, user_id := u.userId } : ShareRow) :: db.shares) =
            List.countP (fun s => s.post_id == q.id) db.shares + 1 := by
          rw [List.countP_cons]
          simp [hbeq]
        show q.shares_count + 1 = (List.countP (fun s => s.post_id == q.id)
            (({ post_id := postId, user_id := u.userId } : ShareRow) :: db.shares) : Int)
        rw [hcnt]
        have h3 := h.2.2
        unfold sharesCnt at h3
        omega
      · rw [if_neg hid]
        refine ⟨h.1, h.2.1, ?_⟩
        have hbne : (postId == q.id) = false := by
          rw [beq_eq_false_iff_ne]
          intro hcon
          exact hid (by simp [hcon.symm])
        have hcnt : List.countP (fun s => s.post_id == q.id)
            (({ post_id := postId, user_id := u.userId } : ShareRow) :: db.shares) =
            List.countP (fun s => s.post_id == q.id) db.shares := by
          rw [List.countP_cons]
          simp [hbne]
        show q.shares_count = (List.countP (fun s => s.post_id == q.id)
            (({ post_id := postId, user_id := u.userId } : ShareRow) :: db.shares) : Int)
        rw [hcnt]
        exact h.2.2
    · intro usr husr
      have h := hcu usr husr
      refine ⟨?_, h.2.1, h.2.2⟩
      have hcnt : List.countP (fun p => p.user_id == usr.id) (db.posts.map (fun p =>
          if p.id == postId then { p with shares_count := p.shares_count + 1 } else p)) =
          List.countP (fun p => p.user_id == usr.id) db.posts := by
        apply countP_comp_eq
        intro a
        show ((if (a.id == postId) = true then { a with shares_count := a.shares_count + 1 }
          else a).user_id == usr.id) = (a.user_id == usr.id)
        split <;> rfl
      show usr.posts_count = (List.countP (fun p => p.user_id == usr.id) (db.posts.map (fun p =>
          if p.id == postId then { p with shares_count := p.shares_count + 1 } else p)) : Int)
      rw [hcnt]
      exact h.1
    · rw [hidsEq]; exact w1
    · intro p' hp'
      rw [List.mem_map] at hp'
      obtain ⟨q, hq, rfl⟩ := hp'
      have hlt := w2 q hq
      show (if (q.id == postId) = true then { q with shares_count := q.shares_count + 1 }
        else q).id < db.nextPostId
      split <;> exact hlt
    · intro l hl
      rw [hidsEq]
      exact w3 l hl
    · intro cm hcm
      rw [hidsEq]
      exact w4 cm hcm
    · intro s hs
      rw [hidsEq]
      rcases List.mem_cons.mp hs with rfl | hmem
      · show postId ∈ db.posts.map (fun p => p.id)
        have hqp : q0.id = postId := by simpa using hq0id
        exact hqp ▸ List.mem_map_of_mem _ hq0
      · exact w5 s hmem

theorem comment_insert_preserves (db : DB) (uid postId : Nat) (content : String)
    (parentEff : Option Nat)
    (hc : countersOK db) (hw : WFProp db)
    (hpostex : ∃ q ∈ db.posts, (q.id == postId) = true)
    (hparent : ∀ pc, parentEff = some pc →
      ∃ c ∈ db.comments, c.id = pc ∧ c.post_id = postId) :
    countersOK { db with
      comments := ⟨db.nextCommentId, postId, uid, content, parentEff⟩ :: db.comments,
      posts := db.posts.map (fun p =>
        if p.id == postId then { p with comments_count := p.comments_count + 1 } else p),
      nextCommentId := db.nextCommentId + 1 } ∧
    WFProp { db with
      comments := ⟨db.nextCommentId, postId, uid, content, parentEff⟩ :: db.comments,
      posts := db.posts.map (fun p =>
        if p.id == postId then { p with comments_count := p.comments_count + 1 } else p),
      nextCommentId := db.nextCommentId + 1 } := by
  obtain ⟨hcp, hcu⟩ := hc
  obtain ⟨w1, w2, w3, w4, w5, w6, w7, w8, w9⟩ := hw
  obtain ⟨q0, hq0, hq0id⟩ := hpostex
  have hidsEq : ((db.posts.map (fun p =>
      if p.id == postId then { p with comments_count := p.comments_count + 1 } else p)).map
        (fun p => p.id)) = db.posts.map (fun p => p.id) := by
    rw [List.map_map]
    have hfun : ((fun p : Post => p.id) ∘ (fun p =>
        if p.id == postId then { p with comments_count := p.comments_count + 1 } else p)) =
        (fun p : Post => p.id) := by
      funext p
      show (if (p.id == postId) = true then { p with comments_count := p.comments_count + 1 }
        else p).id = p.id
      split <;> rfl
    rw [hfun]
  refine ⟨⟨?_, ?_⟩, ?_, ?_, ?_, ?_, ?_, w6, ?_, ?_, ?_⟩
  · intro p' hp'
    rw [List.mem_map] at hp'
    obtain ⟨q, hq, rfl⟩ := hp'
    have h := hcp q hq
    by_cases hid : (q.id == postId) = true
    · rw [if_pos hid]
      refine ⟨h.1, ?_, h.2.2⟩
      have hbeq : (postId == q.id) = true := by
        have hqp : q.id = postId := by simpa using hid
        simp [hqp]
      have hcnt : List.countP (fun cm => cm.post_id == q.id)
          ((⟨db.nextCommentId, postId, uid, content, parentEff⟩ : CommentRow) :: db.comments) =
          List.countP (fun cm => cm.post_id == q.id) db.comments + 1 := by
        rw [List.countP_cons]
        simp [hbeq]
      show q.comments_count + 1 = (List.countP (fun cm => cm.post_id == q.id)
          ((⟨db.nextCommentId, postId, uid, content, parentEff⟩ : CommentRow) :: db.comments) : Int)
      rw [hcnt]
      have h2 := h.2.1
      unfold commentsCnt at h2
      omega
    · rw [if_neg hid]
      refine ⟨h.1, ?_, h.2.2⟩
      have hbne : (postId == q.id) = false := by
        rw [beq_eq_false_iff_ne]
        intro hcon
        exact hid (by simp [hcon.symm])
      have hcnt : List.countP (fun cm => cm.post_id == q.id)
          ((⟨db.nextCommentId, postId, uid, content, parentEff⟩ : CommentRow) :: db.comments) =
          List.countP (fun cm => cm.post_id == q.id) db.comments := by
        rw [List.countP_cons]
        simp [hbne]
      show q.comments_count = (List.countP (fun cm => cm.post_id == q.id)
          ((⟨db.nextCommentId, postId, uid, content, parentEff⟩ : CommentRow) :: db.comments) : Int)
      rw [hcnt]
      exact h.2.1
  · intro usr husr
    have h := hcu usr husr
    refine ⟨?_, h.2.1, h.2.2⟩
    have hcnt : List.countP (fun p => p.user_id == usr.id) (db.posts.map (fun p =>
        if p.id == postId then { p with comments_count := p.comments_count + 1 } else p)) =
        List.countP (fun p => p.user_id == usr.id) db.posts := by
      apply countP_comp_eq
      intro a
      show ((if (a.id == postId) = true then { a with comments_count := a.comments_count + 1 }
        else a).user_id == usr.id) = (a.user_id == usr.id)
      split <;> rfl
    show usr.posts_count = (List.countP (fun p => p.user_id == usr.id) (db.posts.map (fun p =>
        if p.id == postId then { p with comments_count := p.comments_count + 1 } else p)) : Int)
    rw [hcnt]
    exact h.1
  · rw [hidsEq]; exact w1
  · intro p' hp'
    rw [List.mem_map] at hp'
    obtain ⟨q, hq, rfl⟩ := hp'
    have hlt := w2 q hq
    show (if (q.id == postId) = true then { q with comments_count := q.comments_count + 1 }
      else q).id < db.nextPostId
    split <;> exact hlt
  · intro l hl
    rw [hidsEq]
    exact w3 l hl
  · intro cm hcm
    rw [hidsEq]
    rcases List.mem_cons.mp hcm with rfl | hmem
    · show postId ∈ db.posts.map (fun p => p.id)
      have hqp : q0.id = postId := by simpa using hq0id
      exact hqp ▸ List.mem_map_of_mem _ hq0
    · exact w4 cm hmem
  · intro s hs
    rw [hidsEq]
    exact w5 s hs
  · rw [List.map_cons]
    refine List.nodup_cons.mpr ⟨?_, w7⟩
    intro hmem
    rw [List.mem_map] at hmem
    obtain ⟨c, hcmem, hcid⟩ := hmem
    have hcid' : c.id = db.nextCommentId := hcid
    have := w8 c hcmem
    omega
  · intro cm hcm
    rcases List.mem_cons.mp hcm with rfl | hmem
    · show db.nextCommentId < db.nextCommentId + 1
      omega
    · show cm.id < db.nextCommentId + 1
      have := w8 cm hmem
      omega
  · intro cm hcm pc hpc
    rcases List.mem_cons.mp hcm with rfl | hmem
    · obtain ⟨c, hcmem, hcid, hcpost⟩ := hparent pc hpc
      constructor
      · exact ⟨c, List.mem_cons_of_mem _ hcmem, hcid⟩
      · intro c' hc' hc'id
        rcases List.mem_cons.mp hc' with rfl | hmem'
        · exfalso
          have hcid2 : db.nextCommentId = pc := hc'id
          have := w8 c hcmem
          omega
        · have hceq : c' = c :=
            List.inj_on_of_nodup_map w7 hmem' hcmem (by rw [hc'id, hcid])
          rw [hceq, hcpost]
    · have h9 := w9 cm hmem pc hpc
      constructor
      · obtain ⟨c, hcmem, hcid⟩ := h9.1
        exact ⟨c, List.mem_cons_of_mem _ hcmem, hcid⟩
      · intro c' hc' hc'id
        rcases List.mem_cons.mp hc' with rfl | hmem'
        · exfalso
          obtain ⟨c, hcmem, hcid⟩ := h9.1
          have hcid2 : db.nextCommentId = pc := hc'id
          have := w8 c hcmem
          omega
        · exact h9.2 c' hmem' hc'id

theorem preserve_comment (db : DB) (u : UserClaims) (pid : Option Nat) (b : CommentBody)
    (hc : countersOK db) (hw : WFProp db) :
    countersOK (commentPost db u pid b).2 ∧ WFProp (commentPost db u pid b).2 := by
  cases pid with
  | none => exact ⟨hc, hw⟩
  | some postId =>
    simp only [commentPost]
    split
    next => exact ⟨hc, hw⟩
    next hcontent =>
    split
    next => exact ⟨hc, hw⟩
    next hlen =>
    split
    next => exact ⟨hc, hw⟩
    next h404 =>
    have hpostex : ∃ q ∈ db.posts, (q.id == postId) = true := filter_nonempty_exists _ _ h404
    rcases hb : b.parent_comment_id with _ | pc
    · exact comment_insert_preserves db u.userId postId (b.content.getD "") none hc hw hpostex
        (fun pc h => Option.noConfusion h)
    · split
      next pc1 heq =>
        have heq' : (if (pc == 0) = true then none else some pc) = some pc1 := heq
        by_cases hz : (pc == 0) = true
        · rw [if_pos hz] at heq'
          cases heq'
        · rw [if_neg hz] at heq'
          obtain rfl : pc = pc1 := Option.some.inj heq'
          rw [heq]
          split
          next => exact ⟨hc, hw⟩
          next hpar =>
          refine comment_insert_preserves db u.userId postId (b.content.getD "") (some pc) hc hw
            hpostex ?_
          intro pc' hpc'
          obtain ⟨c, hcmem, hcond⟩ := filter_nonempty_exists _ _ hpar
          rw [Bool.and_eq_true] at hcond
          have h1 : c.id = pc := by simpa using hcond.1
          have h2 : c.post_id = postId := by simpa using hcond.2
          have hpcpc : pc' = pc := by
            have hx := hpc'
            simp at hx
            exact hx.symm
          exact ⟨c, hcmem, by rw [h1, hpcpc], h2⟩
      next heq =>
        rw [heq]
        exact comment_insert_preserves db u.userId postId (b.content.getD "") none hc hw hpostex
          (fun pc h => Option.noConfusion h)

theorem preserve_create (db : DB) (u : UserClaims) (b : PostBody)
    (hc : countersOK db) (hw : WFProp db) :
    countersOK (createPost db u b).2 ∧ WFProp (createPost db u b).2 := by
  obtain ⟨hcp, hcu⟩ := hc
  obtain ⟨w1, w2, w3, w4, w5, w6, w7, w8, w9⟩ := hw
  simp only [createPost]
  split
  next => exact ⟨⟨hcp, hcu⟩, w1, w2, w3, w4, w5, w6, w7, w8, w9⟩
  next h1 =>
  split
  next => exact ⟨⟨hcp, hcu⟩, w1, w2, w3, w4, w5, w6, w7, w8, w9⟩
  next h2 =>
  split
  next => exact ⟨⟨hcp, hcu⟩, w1, w2, w3, w4, w5, w6, w7, w8, w9⟩
  next h3 =>
  have hlike0 : List.countP (fun l => l.post_id == db.nextPostId) db.likes = 0 := by
    rw [List.countP_eq_zero]
    intro l hl hbeq
    have hmem := w3 l hl
    rw [List.mem_map] at hmem
    obtain ⟨q, hq, hqid⟩ := hmem
    have hlt := w2 q hq
    have heq : l.post_id = db.nextPostId := by simpa using hbeq
    omega
  have hcomment0 : List.countP (fun cm => cm.post_id == db.nextPostId) db.comments = 0 := by
    rw [List.countP_eq_zero]
    intro cm hl hbeq
    have hmem := w4 cm hl
    rw [List.mem_map] at hmem
    obtain ⟨q, hq, hqid⟩ := hmem
    have hlt := w2 q hq
    have heq : cm.post_id = db.nextPostId := by simpa using hbeq
    omega
  have hshare0 : List.countP (fun sh => sh.post_id == db.nextPostId) db.shares = 0 := by
    rw [List.countP_eq_zero]
    intro sh hl hbeq
    have hmem := w5 sh hl
    rw [List.mem_map] at hmem
    obtain ⟨q, hq, hqid⟩ := hmem
    have hlt := w2 q hq
    have heq : sh.post_id = db.nextPostId := by simpa using hbeq
    omega
  refine ⟨⟨?_, ?_⟩, ?_, ?_, ?_, ?_, ?_, w6, w7, w8, w9⟩
  · intro p' hp'
    rcases List.mem_cons.mp hp' with rfl | hmem
    · refine ⟨?_, ?_, ?_⟩
      · show (0 : Int) = (List.countP (fun l => l.post_id == db.nextPostId) db.likes : Int)
        rw [hlike0]
        rfl
      · show (0 : Int) = (List.countP (fun cm => cm.post_id == db.nextPostId) db.comments : Int)
        rw [hcomment0]
        rfl
      · show (0 : Int) = (List.countP (fun sh => sh.post_id == db.nextPostId) db.shares : Int)
        rw [hshare0]
        rfl
    · exact hcp p' hmem
  · intro usr' husr'
    rw [List.mem_map] at husr'
    obtain ⟨usr, husr, rfl⟩ := husr'
    have h := hcu usr husr
    by_cases hid : (usr.id == u.userId) = true
    · rw [if_pos hid]
      refine ⟨?_, h.2.1, h.2.2⟩
      have hbeq : (u.userId == usr.id) = true := by
        have hqp : usr.id = u.userId := by simpa using hid
        simp [hqp]
      have hcnt : List.countP (fun p => p.user_id == usr.id)
          ((⟨db.nextPostId, u.userId, b.content.getD "",
            if strTruthy b.media_url = true then b.media_url else none,
            if strTruthy b.media_type = true then b.media_type else none,
            match b.visibility with
            | some v => if validVisibility.contains v then v else "public"
            | none => "public",
            0, 0, 0, db.now⟩ : Post) :: db.posts) =
          List.countP (fun p => p.user_id == usr.id) db.posts + 1 := by
        rw [List.countP_cons]
        simp [hbeq]
      show usr.posts_count + 1 = (List.countP (fun p => p.user_id == usr.id)
          ((⟨db.nextPostId, u.userId, b.content.getD "",
            if strTruthy b.media_url = true then b.media_url else none,
            if strTruthy b.media_type = true then b.media_type else none,
            match b.visibility with
            | some v => if validVisibility.contains v then v else "public"
            | none => "public",
            0, 0, 0, db.now⟩ : Post) :: db.posts) : Int)
      rw [hcnt]
      have h1 := h.1
      unfold postsCnt at h1
      omega
    · rw [if_neg hid]
      refine ⟨?_, h.2.1, h.2.2⟩
      have hbne : (u.userId == usr.id) = false := by
        rw [beq_eq_false_iff_ne]
        intro hcon
        exact hid (by simp [hcon.symm])
      have hcnt : List.countP (fun p => p.user_id == usr.id)
          ((⟨db.nextPostId, u.userId, b.content.getD "",
            if strTruthy b.media_url = true then b.media_url else none,
            if strTruthy b.media_type = true then b.media_type else none,
            match b.visibility with
            | some v => if validVisibility.contains v then v else "public"
            | none => "public",
            0, 0, 0, db.now⟩ : Post) :: db.posts) =
          List.countP (fun p => p.user_id == usr.id) db.posts := by
        rw [List.countP_cons]
        simp [hbne]
      show usr.posts_count = (List.countP (fun p => p.user_id == usr.id)
          ((⟨db.nextPostId, u.userId, b.content.getD "",
            if strTruthy b.media_url = true then b.media_url else none,
            if strTruthy b.media_type = true then b.media_type else none,
            match b.visibility with
            | some v => if validVisibility.contains v then v else "public"
            | none => "public",
            0, 0, 0, db.now⟩ : Post) :: db.posts) : Int)
      rw [hcnt]
      exact h.1
  · rw [List.map_cons]
    refine List.nodup_cons.mpr ⟨?_, w1⟩
    intro hmem
    rw [List.mem_map] at hmem
    obtain ⟨q, hq, hqid⟩ := hmem
    have := w2 q hq
    have hqid' : q.id = db.nextPostId := hqid
    omega
  · intro p' hp'
    rcases List.mem_cons.mp hp' with rfl | hmem
    · show db.nextPostId < db.nextPostId + 1
      omega
    · have := w2 p' hmem
      show p'.id < db.nextPostId + 1
      omega
  · intro l hl
    rw [List.map_cons]
    exact List.mem_cons_of_mem _ (w3 l hl)
  · intro cm hcm
    rw [List.map_cons]
    exact List.mem_cons_of_mem _ (w4 cm hcm)
  · intro s hs
    rw [List.map_cons]
    exact List.mem_cons_of_mem _ (w5 s hs)

theorem countP_ext (p q : α → Bool) (l : List α) (h : ∀ a ∈ l, p a = q a) :
    l.countP p = l.countP q := by
  induction l with
  | nil => rfl
  | cons a t ih =>
    have ht : ∀ x ∈ t, p x = q x := fun x hx => h x (List.mem_cons_of_mem a hx)
    rw [List.countP_cons, List.countP_cons, h a (List.mem_cons_self a t), ih ht]

theorem followPair_eq_key (me target : Nat) (x : FollowRow) :
    followPair me target x = ((x.follower_id, x.following_id) == (me, target)) := rfl

theorem countP_filter_not_eq (p r : α → Bool) (l : List α)
    (h0 : ∀ a ∈ l, ¬(p a = true ∧ r a = true)) :
    (l.filter (fun a => !r a)).countP p = l.countP p := by
  have hadd := countP_filter_not_add p r l
  have h00 : l.countP (fun a => p a && r a) = 0 := by
    rw [List.countP_eq_zero]
    intro a ha hcon
    rw [Bool.and_eq_true] at hcon
    exact h0 a ha hcon
  omega

theorem countP_filter_not_sub (p r : α → Bool) (l : List α)
    (himp : ∀ a ∈ l, r a = true → p a = true) (hone : l.countP r = 1) :
    (l.filter (fun a => !r a)).countP p + 1 = l.countP p := by
  have hadd := countP_filter_not_add p r l
  rw [countP_and_eq_of_imp p r l himp, hone] at hadd
  omega

theorem followPair_dest (me target : Nat) (x : FollowRow)
    (h : followPair me target x = true) :
    x.follower_id = me ∧ x.following_id = target := by
  unfold followPair at h
  rw [Bool.and_eq_true] at h
  exact ⟨by simpa using h.1, by simpa using h.2⟩

theorem follows_pair_count_one (follows : List FollowRow) (me target : Nat)
    (hn : (follows.map (fun f => (f.follower_id, f.following_id))).Nodup)
    (hex : 0 < (follows.filter (followPair me target)).length) :
    follows.countP (followPair me target) = 1 := by
  have hpos : 0 < follows.countP (followPair me target) := by
    rw [List.countP_eq_length_filter]
    exact hex
  obtain ⟨fr, hmem, hr⟩ := List.countP_pos_iff.mp hpos
  obtain ⟨hfo, hfi⟩ := followPair_dest me target fr hr
  have hkey := countP_key_one (fun f : FollowRow => (f.follower_id, f.following_id))
    follows hn fr hmem
  rw [← hkey]
  apply countP_ext
  intro a _
  rw [followPair_eq_key]
  show ((a.follower_id, a.following_id) == (me, target)) =
    ((a.follower_id, a.following_id) == (fr.follower_id, fr.following_id))
  rw [hfo, hfi]

theorem preserve_follow (db : DB) (u : UserClaims) (tid : Option Nat)
    (hc : countersOK db) (hw : WFProp db) :
    countersOK (followToggle db u tid).2 ∧ WFProp (followToggle db u tid).2 := by
  obtain ⟨hcp, hcu⟩ := hc
  obtain ⟨w1, w2, w3, w4, w5, w6, w7, w8, w9⟩ := hw
  cases tid with
  | none => exact ⟨⟨hcp, hcu⟩, w1, w2, w3, w4, w5, w6, w7, w8, w9⟩
  | some targetId =>
    simp only [followToggle, followToggleOn]
    split
    next => exact ⟨⟨hcp, hcu⟩, w1, w2, w3, w4, w5, w6, w7, w8, w9⟩
    next hself =>
    have hneMT : targetId ≠ u.userId := by simpa using hself
    split
    next => exact ⟨⟨hcp, hcu⟩, w1, w2, w3, w4, w5, w6, w7, w8, w9⟩
    next hexists =>
    split
    next hpos =>
      -- unfollow branch
      have hone : db.follows.countP (followPair u.userId targetId) = 1 :=
        follows_pair_count_one db.follows u.userId targetId w6 hpos
      refine ⟨⟨fun p hp => hcp p hp, ?_⟩, w1, w2, w3, w4, w5, ?_, w7, w8, w9⟩
      · intro usr'' husr''
        rw [List.map_map, List.mem_map] at husr''
        obtain ⟨usr, husr, rfl⟩ := husr''
        have h := hcu usr husr
        simp only [Function.comp]
        by_cases hM : (usr.id == u.userId) = true
        · have hMe : usr.id = u.userId := by simpa using hM
          have hTneg : ¬(usr.id == targetId) = true := by
            intro hcon
            have hcon' : usr.id = targetId := by simpa using hcon
            exact hneMT (hcon'.symm.trans hMe)
          rw [if_pos hM]
          rw [if_neg (show ¬((({ usr with following_count := usr.following_count - 1 } :
            User)).id == targetId) = true from hTneg)]
          refine ⟨h.1, ?_, ?_⟩
          · have hcnt := countP_filter_not_eq (fun f => f.following_id == usr.id)
              (followPair u.userId targetId) db.follows (by
                intro a ha hcon
                obtain ⟨hp, hr⟩ := hcon
                obtain ⟨hfo, hfi⟩ := followPair_dest _ _ _ hr
                have hpa : a.following_id = usr.id := by simpa using hp
                exact hneMT ((hfi.symm.trans hpa).trans hMe))
            show usr.followers_count = (List.countP (fun f => f.following_id == usr.id)
              (db.follows.filter (fun f => !(followPair u.userId targetId f))) : Int)
            rw [hcnt]
            exact h.2.1
          · have hsub := countP_filter_not_sub (fun f => f.follower_id == usr.id)
              (followPair u.userId targetId) db.follows (by
                intro a ha hr
                obtain ⟨hfo, hfi⟩ := followPair_dest _ _ _ hr
                simp [hfo, hMe]) hone
            show usr.following_count - 1 = (List.countP (fun f => f.follower_id == usr.id)
              (db.follows.filter (fun f => !(followPair u.userId targetId f))) : Int)
            have h22 := h.2.2
            unfold followingCnt at h22
            omega
        · rw [if_neg hM]
          by_cases hT : (usr.id == targetId) = true
          · have hTe : usr.id = targetId := by simpa using hT
            rw [if_pos hT]
            refine ⟨h.1, ?_, ?_⟩
            · have hsub := countP_filter_not_sub (fun f => f.following_id == usr.id)
                (followPair u.userId targetId) db.follows (by
                  intro a ha hr
                  obtain ⟨hfo, hfi⟩ := followPair_dest _ _ _ hr
                  simp [hfi, hTe]) hone
              show usr.followers_count - 1 = (List.countP (fun f => f.following_id == usr.id)
                (db.follows.filter (fun f => !(followPair u.userId targetId f))) : Int)
              have h21 := h.2.1
              unfold followersCnt at h21
              omega
            · have hcnt := countP_filter_not_eq (fun f => f.follower_id == usr.id)
                (followPair u.userId targetId) db.follows (by
                  intro a ha hcon
                  obtain ⟨hp, hr⟩ := hcon
                  obtain ⟨hfo, hfi⟩ := followPair_dest _ _ _ hr
                  have hpa : a.follower_id = usr.id := by simpa using hp
                  have : u.userId = targetId := (hfo.symm.trans hpa).trans hTe
                  exact hneMT this.symm)
              show usr.following_count = (List.countP (fun f => f.follower_id == usr.id)
                (db.follows.filter (fun f => !(followPair u.userId targetId f))) : Int)
              rw [hcnt]
              exact h.2.2
          · rw [if_neg hT]
            refine ⟨h.1, ?_, ?_⟩
            · have hcnt := countP_filter_not_eq (fun f => f.following_id == usr.id)
                (followPair u.userId targetId) db.follows (by
                  intro a ha hcon
                  obtain ⟨hp, hr⟩ := hcon
                  obtain ⟨hfo, hfi⟩ := followPair_dest _ _ _ hr
                  have hpa : a.following_id = usr.id := by simpa using hp
                  exact hT (by simp [← hpa, hfi]))
              show usr.followers_count = (List.countP (fun f => f.following_id == usr.id)
                (db.follows.filter (fun f => !(followPair u.userId targetId f))) : Int)
              rw [hcnt]
              exact h.2.1
            · have hcnt := countP_filter_not_eq (fun f => f.follower_id == usr.id)
                (followPair u.userId targetId) db.follows (by
                  intro a ha hcon
                  obtain ⟨hp, hr⟩ := hcon
                  obtain ⟨hfo, hfi⟩ := followPair_dest _ _ _ hr
                  have hpa : a.follower_id = usr.id := by simpa using hp
                  exact hM (by simp [← hpa, hfo]))
              show usr.following_count = (List.countP (fun f => f.follower_id == usr.id)
                (db.follows.filter (fun f => !(followPair u.userId targetId f))) : Int)
              rw [hcnt]
              exact h.2.2
      · exact List.Nodup.sublist
          (List.Sublist.map _ (List.filter_sublist _)) w6
    next hzero =>
    have hnone : ∀ a ∈ db.follows, followPair u.userId targetId a = false := by
      have hlen : (db.follows.filter (followPair u.userId targetId)).length = 0 := by omega
      have hnil := List.length_eq_zero.mp hlen
      intro a ha
      by_contra hcon
      rw [Bool.not_eq_false] at hcon
      have : a ∈ db.follows.filter (followPair u.userId targetId) :=
        List.mem_filter.mpr ⟨ha, hcon⟩
      rw [hnil] at this
      cases this
    split
    next => exact ⟨⟨hcp, hcu⟩, w1, w2, w3, w4, w5, w6, w7, w8, w9⟩
    next hany =>
    -- insert branch
    refine ⟨⟨fun p hp => hcp p hp, ?_⟩, w1, w2, w3, w4, w5, ?_, w7, w8, w9⟩
    · intro usr'' husr''
      rw [List.map_map, List.mem_map] at husr''
      obtain ⟨usr, husr, rfl⟩ := husr''
      have h := hcu usr husr
      simp only [Function.comp]
      by_cases hM : (usr.id == u.userId) = true
      · have hMe : usr.id = u.userId := by simpa using hM
        have hTneg : ¬(usr.id == targetId) = true := by
          intro hcon
          have hcon' : usr.id = targetId := by simpa using hcon
          exact hneMT (hcon'.symm.trans hMe)
        rw [if_pos hM]
        rw [if_neg (show ¬((({ usr with following_count := usr.following_count + 1 } :
          User)).id == targetId) = true from hTneg)]
        refine ⟨h.1, ?_, ?_⟩
        · have hcnt : List.countP (fun f => f.following_id == usr.id)
              ((⟨u.userId, targetId⟩ : FollowRow) :: db.follows) =
              List.countP (fun f => f.following_id == usr.id) db.follows := by
            rw [List.countP_cons]
            have : (targetId == usr.id) = false := by
              rw [beq_eq_false_iff_ne]
              intro hcon
              exact hneMT (hcon.trans hMe)
            simp [this]
          show usr.followers_count = (List.countP (fun f => f.following_id == usr.id)
            ((⟨u.userId, targetId⟩ : FollowRow) :: db.follows) : Int)
          rw [hcnt]
          exact h.2.1
        · have hcnt : List.countP (fun f => f.follower_id == usr.id)
              ((⟨u.userId, targetId⟩ : FollowRow) :: db.follows) =
              List.countP (fun f => f.follower_id == usr.id) db.follows + 1 := by
            rw [List.countP_cons]
            have : (u.userId == usr.id) = true := by simp [hMe]
            simp [this]
          show usr.following_count + 1 = (List.countP (fun f => f.follower_id == usr.id)
            ((⟨u.userId, targetId⟩ : FollowRow) :: db.follows) : Int)
          rw [hcnt]
          have h22 := h.2.2
          unfold followingCnt at h22
          omega
      · rw [if_neg hM]
        by_cases hT : (usr.id == targetId) = true
        · have hTe : usr.id = targetId := by simpa using hT
          rw [if_pos hT]
          refine ⟨h.1, ?_, ?_⟩
          · have hcnt : List.countP (fun f => f.following_id == usr.id)
                ((⟨u.userId, targetId⟩ : FollowRow) :: db.follows) =
                List.countP (fun f => f.following_id == usr.id) db.follows + 1 := by
              rw [List.countP_cons]
              have : (targetId == usr.id) = true := by simp [hTe]
              simp [this]
            show usr.followers_count + 1 = (List.countP (fun f => f.following_id == usr.id)
              ((⟨u.userId, targetId⟩ : FollowRow) :: db.follows) : Int)
            rw [hcnt]
            have h21 := h.2.1
            unfold followersCnt at h21
            omega
          · have hcnt : List.countP (fun f => f.follower_id == usr.id)
                ((⟨u.userId, targetId⟩ : FollowRow) :: db.follows) =
                List.countP (fun f => f.follower_id == usr.id) db.follows := by
              rw [List.countP_cons]
              have : (u.userId == usr.id) = false := by
                rw [beq_eq_false_iff_ne]
                intro hcon
                exact hneMT (hTe.symm.trans hcon.symm)
              simp [this]
            show usr.following_count = (List.countP (fun f => f.follower_id == usr.id)
              ((⟨u.userId, targetId⟩ : FollowRow) :: db.follows) : Int)
            rw [hcnt]
            exact h.2.2
        · rw [if_neg hT]
          refine ⟨h.1, ?_, ?_⟩
          · have hcnt : List.countP (fun f => f.following_id == usr.id)
                ((⟨u.userId, targetId⟩ : FollowRow) :: db.follows) =
                List.countP (fun f => f.following_id == usr.id) db.follows := by
              rw [List.countP_cons]
              have : (targetId == usr.id) = false := by
                rw [beq_eq_false_iff_ne]
                intro hcon
                exact hT (by simp [hcon.symm])
              simp [this]
            show usr.followers_count = (List.countP (fun f => f.following_id == usr.id)
              ((⟨u.userId, targetId⟩ : FollowRow) :: db.follows) : Int)
            rw [hcnt]
            exact h.2.1
          · have hcnt : List.countP (fun f => f.follower_id == usr.id)
                ((⟨u.userId, targetId⟩ : FollowRow) :: db.follows) =
                List.countP (fun f => f.follower_id == usr.id) db.follows := by
              rw [List.countP_cons]
              have : (u.userId == usr.id) = false := by
                rw [beq_eq_false_iff_ne]
                intro hcon
                exact hM (by simp [hcon.symm])
              simp [this]
            show usr.following_count = (List.countP (fun f => f.follower_id == usr.id)
              ((⟨u.userId, targetId⟩ : FollowRow) :: db.follows) : Int)
            rw [hcnt]
            exact h.2.2
    · rw [List.map_cons]
      refine List.nodup_cons.mpr ⟨?_, w6⟩
      intro hmem
      rw [List.mem_map] at hmem
      obtain ⟨fr, hfrmem, hfrkey⟩ := hmem
      have hfrkey' : (fr.follower_id, fr.following_id) = (u.userId, targetId) := hfrkey
      have hpair : followPair u.userId targetId fr = true := by
        rw [followPair_eq_key, hfrkey']
        simp
      rw [hnone fr hfrmem] at hpair
      cases hpair

theorem preserve_remove (db : DB) (u : UserClaims) (pid : Option Nat)
    (hc : countersOK db) (hw : WFProp db) :
    countersOK (deletePost db u pid).2 ∧ WFProp (deletePost db u pid).2 := by
  obtain ⟨hcp, hcu⟩ := hc
  obtain ⟨w1, w2, w3, w4, w5, w6, w7, w8, w9⟩ := hw
  cases pid with
  | none => exact ⟨⟨hcp, hcu⟩, w1, w2, w3, w4, w5, w6, w7, w8, w9⟩
  | some postId =>
    simp only [deletePost]
    split
    next => exact ⟨⟨hcp, hcu⟩, w1, w2, w3, w4, w5, w6, w7, w8, w9⟩
    next post tail hcons =>
    split
    next => exact ⟨⟨hcp, hcu⟩, w1, w2, w3, w4, w5, w6, w7, w8, w9⟩
    next hperm =>
    have hmemfil : post ∈ db.posts.filter (fun p => p.id == postId) := by
      rw [hcons]
      exact List.mem_cons_self post tail
    have hpostmem : post ∈ db.posts := List.mem_of_mem_filter hmemfil
    have hpid : post.id = postId := by simpa using List.of_mem_filter hmemfil
    have huniq : ∀ q ∈ db.posts, q.id = postId → q = post := by
      intro q hq hqid
      exact List.inj_on_of_nodup_map w1 hq hpostmem (hqid.trans hpid.symm)
    have hcntpid : db.posts.countP (fun q => q.id == postId) = 1 := by
      have hkey := countP_key_one (fun p : Post => p.id) db.posts w1 post hpostmem
      rw [← hkey]
      apply countP_ext
      intro a _
      show (a.id == postId) = (a.id == post.id)
      rw [hpid]
    refine ⟨⟨?_, ?_⟩, ?_, ?_, ?_, ?_, ?_, w6, ?_, ?_, ?_⟩
    · intro p' hp'
      obtain ⟨hmem, hne⟩ := List.mem_filter.mp hp'
      have hne' : p'.id ≠ postId := by simpa using hne
      have h := hcp p' hmem
      refine ⟨?_, ?_, ?_⟩
      · have hcnt := countP_filter_not_eq (fun l => l.post_id == p'.id)
          (fun l => l.post_id == postId) db.likes (by
            intro a ha hcon
            obtain ⟨hp, hr⟩ := hcon
            have h1 : a.post_id = p'.id := by simpa using hp
            have h2 : a.post_id = postId := by simpa using hr
            exact hne' (h1.symm.trans h2))
        show p'.likes_count = (List.countP (fun l => l.post_id == p'.id)
          (db.likes.filter (fun l => !(l.post_id == postId))) : Int)
        rw [hcnt]
        exact h.1
      · have hcnt := countP_filter_not_eq (fun cm => cm.post_id == p'.id)
          (fun cm => cm.post_id == postId) db.comments (by
            intro a ha hcon
            obtain ⟨hp, hr⟩ := hcon
            have h1 : a.post_id = p'.id := by simpa using hp
            have h2 : a.post_id = postId := by simpa using hr
            exact hne' (h1.symm.trans h2))
        show p'.comments_count = (List.countP (fun cm => cm.post_id == p'.id)
          (db.comments.filter (fun cm => !(cm.post_id == postId))) : Int)
        rw [hcnt]
        exact h.2.1
      · have hcnt := countP_filter_not_eq (fun s => s.post_id == p'.id)
          (fun s => s.post_id == postId) db.shares (by
            intro a ha hcon
            obtain ⟨hp, hr⟩ := hcon
            have h1 : a.post_id = p'.id := by simpa using hp
            have h2 : a.post_id = postId := by simpa using hr
            exact hne' (h1.symm.trans h2))
        show p'.shares_count = (List.countP (fun s => s.post_id == p'.id)
          (db.shares.filter (fun s => !(s.post_id == postId))) : Int)
        rw [hcnt]
        exact h.2.2
    · intro usr'' husr''
      rw [List.mem_map] at husr''
      obtain ⟨usr, husr, rfl⟩ := husr''
      have h := hcu usr husr
      by_cases hU : (usr.id == post.user_id) = true
      · have hUe : usr.id = post.user_id := by simpa using hU
        rw [if_pos hU]
        refine ⟨?_, h.2.1, h.2.2⟩
        have hsub : (db.posts.filter (fun q => !(q.id == postId))).countP
            (fun q => q.user_id == usr.id) + 1 =
            db.posts.countP (fun q => q.user_id == usr.id) :=
          countP_filter_not_sub (fun q => q.user_id == usr.id)
            (fun q => q.id == postId) db.posts (by
              intro q hq hr
              have hqid : q.id = postId := by simpa using hr
              have hqeq := huniq q hq hqid
              show (q.user_id == usr.id) = true
              rw [hqeq, hUe]
              simp) hcntpid
        show usr.posts_count - 1 = (List.countP (fun q => q.user_id == usr.id)
          (db.posts.filter (fun q => !(q.id == postId))) : Int)
        have h1 := h.1
        unfold postsCnt at h1
        omega
      · rw [if_neg hU]
        refine ⟨?_, h.2.1, h.2.2⟩
        have hcnt := countP_filter_not_eq (fun q => q.user_id == usr.id)
          (fun q => q.id == postId) db.posts (by
            intro q hq hcon
            obtain ⟨hp, hr⟩ := hcon
            have hqid : q.id = postId := by simpa using hr
            have hqeq := huniq q hq hqid
            have hpu : q.user_id = usr.id := by simpa using hp
            rw [hqeq] at hpu
            exact hU (by simp [hpu.symm]))
        show usr.posts_count = (List.countP (fun q => q.user_id == usr.id)
          (db.posts.filter (fun q => !(q.id == postId))) : Int)
        rw [hcnt]
        exact h.1
    · exact List.Nodup.sublist (List.Sublist.map _ (List.filter_sublist _)) w1
    · intro p' hp'
      exact w2 p' (List.mem_of_mem_filter hp')
    · intro l hl
      obtain ⟨hmem, hne⟩ := List.mem_filter.mp hl
      have hne' : l.post_id ≠ postId := by simpa using hne
      have hin := w3 l hmem
      rw [List.mem_map] at hin ⊢
      obtain ⟨q, hq, hqid⟩ := hin
      have hqne : ¬(q.id == postId) = true := by
        intro hcon
        exact hne' (by rw [← hqid]; simpa using hcon)
      exact ⟨q, List.mem_filter.mpr ⟨hq, by simpa using hqne⟩, hqid⟩
    · intro cm hcm
      obtain ⟨hmem, hne⟩ := List.mem_filter.mp hcm
      have hne' : cm.post_id ≠ postId := by simpa using hne
      have hin := w4 cm hmem
      rw [List.mem_map] at hin ⊢
      obtain ⟨q, hq, hqid⟩ := hin
      have hqne : ¬(q.id == postId) = true := by
        intro hcon
        exact hne' (by rw [← hqid]; simpa using hcon)
      exact ⟨q, List.mem_filter.mpr ⟨hq, by simpa using hqne⟩, hqid⟩
    · intro s hs
      obtain ⟨hmem, hne⟩ := List.mem_filter.mp hs
      have hne' : s.post_id ≠ postId := by simpa using hne
      have hin := w5 s hmem
      rw [List.mem_map] at hin ⊢
      obtain ⟨q, hq, hqid⟩ := hin
      have hqne : ¬(q.id == postId) = true := by
        intro hcon
        exact hne' (by rw [← hqid]; simpa using hcon)
      exact ⟨q, List.mem_filter.mpr ⟨hq, by simpa using hqne⟩, hqid⟩
    · exact List.Nodup.sublist (List.Sublist.map _ (List.filter_sublist _)) w7
    · intro cm hcm
      exact w8 cm (List.mem_of_mem_filter hcm)
    · intro cm hcm pc hpc
      obtain ⟨hmem, hnecm⟩ := List.mem_filter.mp hcm
      have hnecm' : cm.post_id ≠ postId := by simpa using hnecm
      have h9 := w9 cm hmem pc hpc
      obtain ⟨⟨c, hc, hcid⟩, hall⟩ := h9
      have hcpost : c.post_id = cm.post_id := hall c hc hcid
      have hcne : ¬(c.post_id == postId) = true := by
        intro hcon
        exact hnecm' (by rw [← hcpost]; simpa using hcon)
      refine ⟨⟨c, List.mem_filter.mpr ⟨hc, by simpa using hcne⟩, hcid⟩, ?_⟩
      intro c' hc' hc'id
      exact hall c' (List.mem_of_mem_filter hc') hc'id

/-- C7: starting from a store state whose denormalized counters match the row
cardinalities (and which satisfies the store-enforced structural constraints),
every sequence of like / comment / share / follow-toggle / create-post /
delete-post requests, executed sequentially, leaves every post's
likes_count / comments_count / shares_count and every user's posts_count /
followers_count / following_count equal to the corresponding row counts. -/
theorem spec_C7_counters (ops : List Op) (db : DB)
    (hc : countersOK db) (hw : wellFormed db = true) :
    countersOK (runOps ops db) := by
  have hwp := wellFormed_to_prop db hw
  suffices h : ∀ d, countersOK d → WFProp d →
      countersOK (runOps ops d) ∧ WFProp (runOps ops d) from (h db hc hwp).1
  induction ops with
  | nil => exact fun d h1 h2 => ⟨h1, h2⟩
  | cons op rest ih =>
    intro d h1 h2
    have hstep : countersOK (applyOp op d) ∧ WFProp (applyOp op d) := by
      cases op with
      | like u pid => exact preserve_like d u pid h1 h2
      | comment u pid b => exact preserve_comment d u pid b h1 h2
      | share u pid => exact preserve_share d u pid h1 h2
      | follow u tid => exact preserve_follow d u tid h1 h2
      | create u b => exact preserve_create d u b h1 h2
      | remove u pid => exact preserve_remove d u pid h1 h2
    exact ih (applyOp op d) hstep.1 hstep.2

/-- Witness for C7: a concrete consistent store and a concrete mixed request
sequence (follow, like, comment, share, create, unfollow, delete). -/
theorem spec_C7_witness :
    countersOK w7DB ∧ wellFormed w7DB = true ∧ countersOK (runOps w7Ops w7DB) :=
  ⟨by decide, by decide, spec_C7_counters w7Ops w7DB (by decide) (by decide)⟩
